import Mathlib

/-!
# Verification of the go-cggmp-tss protocol engine

A shallow embedding, in Lean 4, of the parts of the `go-cggmp-tss` repository
(a CGGMP21-style threshold-ECDSA library in Go) that the specification's
claims are about, together with theorems settling those claims.

Conventions of the embedding:

* Go `*big.Int` values are `Nat` (all the protocol values in question are
  non-negative) or `Int` where Go's Euclidean `Div`/`Mod` on possibly
  negative intermediate values matters (the Paillier private-key module).
  Lean's `Int` `/` and `%` are Euclidean division and modulus, matching
  Go's `big.Int.Div`/`big.Int.Mod`.
* Byte slices are `List Nat` (`Bytes`); writers only emit values < 256.
* Randomness (`crypto/rand`) is passed in explicitly: each round body takes
  the scalars it would have sampled as arguments.
* The secp256k1 curve is reached through the repository's own `curves.Curve`
  interface; we embed that interface as a `Curve` structure of operations on
  affine coordinate pairs and parametrise every round body by it, just as
  the Go code is written against the interface.  For claims that need the
  actual group structure we instantiate it with `expCurve q`: the secp256k1
  group is cyclic of prime order `q` generated by `G`, so a point `x·G` is
  faithfully represented by its discrete logarithm `x mod q`; point addition
  is addition of logarithms and `ScalarMult` is multiplication, and two
  points are equal iff their logarithms agree mod `q`.
* SHA-256 and the Schnorr proof verifier are external capabilities of the
  engine (the spec lists the low-level primitives as out of scope); round
  bodies take them as function parameters (`HashFn`, `SchnorrVerify`), and
  no claim depends on their internals-only on what is hashed or on the
  pass/fail routing of the verifier.
* Go maps keyed by party id are association lists (`Buffer`) whose keys are
  kept unique by construction, so `len(map)` is the list length.
* Fallible Go paths (`error` returns) are `Except Err` / an `Option Err`
  field; the `Err` type separates `*tss.Blame` errors (which carry a party
  id and reason structurally) from plain `fmt.Errorf` errors (a bare string),
  mirroring the Go dynamic types.
-/

deriving instance DecidableEq for Except

namespace CGGMP

/-- Byte strings (`[]byte`): lists of byte values. -/
abbrev Bytes := List Nat

/-- `big.Int.Bytes()`: minimal big-endian representation, empty for zero.
Implemented with explicit fuel (the number itself bounds the digit count)
so that it reduces in the kernel. -/
def natToBytesBEAux : Nat → Nat → Bytes
  | 0, _ => []
  | _ + 1, 0 => []
  | fuel + 1, n => natToBytesBEAux fuel (n / 256) ++ [n % 256]

/-- `big.Int.Bytes()`: minimal big-endian bytes of a natural number. -/
def natToBytesBE (n : Nat) : Bytes := natToBytesBEAux n n

/-- `big.Int.SetBytes`: interpret big-endian bytes as a natural number. -/
def bytesToNat (bs : Bytes) : Nat := bs.foldl (fun acc b => acc * 256 + b) 0

/-- Zero left-pad to a fixed width, truncating to the byte suffix when the
input is longer (the Go code's explicit `copy(padded, b[len(b)-w:])`
branch used for 32-byte curve coordinates). -/
def padLeftTrunc (w : Nat) (bs : Bytes) : Bytes :=
  if bs.length > w then bs.drop (bs.length - w)
  else List.replicate (w - bs.length) 0 ++ bs

/-- Zero left-pad to a fixed width with no truncation branch (the Go code's
Paillier-N padding `copy(paddedN[256-len(nBytes):], nBytes)`; an input
longer than the width would panic in Go and is passed through here). -/
def padLeft (w : Nat) (bs : Bytes) : Bytes :=
  List.replicate (w - bs.length) 0 ++ bs

/-- ASCII decimal rendering of a natural number (how `encoding/json`
serialises a `*big.Int`). -/
def natDecimalBytes (n : Nat) : Bytes := (toString n).toList.map Char.toNat

/-- The bytes of an ASCII string literal. -/
def strBytes (s : String) : Bytes := s.toList.map Char.toNat

/-- One character of the standard base64 alphabet, as a byte. -/
def base64Char (i : Nat) : Nat :=
  if i < 26 then 65 + i
  else if i < 52 then 97 + (i - 26)
  else if i < 62 then 48 + (i - 52)
  else if i = 62 then 43 else 47

/-- Standard base64 with padding (how `encoding/json` serialises a
`[]byte` field), 3-byte groups to 4 characters. -/
def base64Encode : Bytes → Bytes
  | [] => []
  | [b0] =>
      [base64Char (b0 / 4), base64Char (b0 % 4 * 16), 61, 61]
  | [b0, b1] =>
      [base64Char (b0 / 4), base64Char (b0 % 4 * 16 + b1 / 16),
       base64Char (b1 % 16 * 4), 61]
  | b0 :: b1 :: b2 :: rest =>
      base64Char (b0 / 4) :: base64Char (b0 % 4 * 16 + b1 / 16) ::
      base64Char (b1 % 16 * 4 + b2 / 64) :: base64Char (b2 % 64) ::
      base64Encode rest

/-- Parse a party-id string as a base-10 integer
(`new(big.Int).SetString(id, 10)`; ids in this engine are decimal
numerals, non-numeral ids are outside the modelled behaviour). -/
def parseDec (s : String) : Nat :=
  s.toList.foldl (fun acc c => acc * 10 + (c.toNat - 48)) 0

/-- A comma-separated join of byte fragments (JSON array interior). -/
def commaJoin : List Bytes → Bytes
  | [] => []
  | [x] => x
  | x :: xs => x ++ [44] ++ commaJoin xs

/-! ## Messages, errors, state-machine results -/

/-- The decoded payload of a protocol message.  The Go engine carries
payloads as raw bytes and (de)serialises the structured ones with
`encoding/json`; we carry byte payloads (`raw`) where byte layout is what
the claims are about, and the decoded `...Payload` structs elsewhere. -/
inductive Payload
  /-- A raw byte payload (commitments, decommits, VSS shares). -/
  | raw (bs : Bytes)
  /-- sign `Round1Payload{EncK, GammaX, GammaY []byte}`. -/
  | signRound1 (encK gammaX gammaY : Bytes)
  /-- sign `Round2Payload{C_delta, C_sigma *big.Int}`. -/
  | signRound2 (cDelta cSigma : Nat)
  /-- sign `Round3Payload{DeltaI *big.Int}`. -/
  | signRound3 (deltaI : Nat)
  /-- sign `Round4Payload{Si *big.Int}`. -/
  | signRound4 (si : Nat)
  /-- keygen/refresh `Round3Payload{XiX, XiY, ProofR, ProofS []byte}`. -/
  | proofR3 (xiX xiY proofR proofS : Bytes)
  deriving DecidableEq, Repr

/-- A protocol message (the `tss.Message` interface). -/
structure Msg where
  sender : String
  mtype : String
  round : Nat
  isBroadcast : Bool
  recipients : List String
  payload : Payload
  deriving DecidableEq, Repr

instance : Inhabited Msg :=
  ⟨{ sender := "", mtype := "", round := 0, isBroadcast := false
     recipients := [], payload := .raw [] }⟩

/-- Errors surfaced by the engine.  `blame` is the structured `*tss.Blame`
(party id and reason as fields); `plain` is a bare `fmt.Errorf` string;
`protocolDone` is `tss.ErrProtocolDone`. -/
inductive Err
  | plain (msg : String)
  | blame (partyId : String) (reason : String)
  | protocolDone
  deriving DecidableEq, Repr

/-- The triple returned by `Update` / a round body:
`(next tss.StateMachine, []tss.Message, error)`. -/
structure UpdateRes (σ : Type) where
  next : Option σ
  out : List Msg
  err : Option Err
  deriving DecidableEq, Repr

/-! ## The received-message buffer

Go: `receivedMsgs map[string][]tss.Message`; an association list with
unique keys, so the map length is the list length. -/

/-- Received-message buffer keyed by sender id. -/
abbrev Buffer := List (String × List Msg)

/-- The messages so far from one sender (empty when absent). -/
def Buffer.get (b : Buffer) (id : String) : List Msg :=
  match b.find? (fun e => e.1 == id) with
  | some e => e.2
  | none => []

/-- `s.receivedMsgs[senderID] = append(s.receivedMsgs[senderID], msg)`:
append to the sender's entry, creating it if absent. -/
def Buffer.add (b : Buffer) (id : String) (m : Msg) : Buffer :=
  match b with
  | [] => [(id, [m])]
  | e :: rest =>
      if e.1 == id then (e.1, e.2 ++ [m]) :: rest
      else e :: Buffer.add rest id m

/-- Does the buffer already hold a message of this type from this sender
(the duplicate test all four protocols run before appending)? -/
def Buffer.hasType (b : Buffer) (id : String) (t : String) : Bool :=
  (Buffer.get b id).any (fun ex => ex.mtype == t)

/-! ## Session parameters -/

/-- `tss.Parameters` (the fields the embedded code reads). -/
structure Params where
  partyId : String
  parties : List String
  threshold : Nat
  oneRoundKeyGen : Bool := false
  deriving DecidableEq, Repr

/-! ## The curve interface

The Go code is written against `curves.Curve`; points are affine
coordinate pairs of `*big.Int`.  `q` is `Params().N`, the group order. -/

/-- An affine point as its coordinate pair. -/
abbrev Pt := Nat × Nat

/-- The `curves.Curve` interface: group order and the three point
operations the embedded code uses. -/
structure Curve where
  q : Nat
  add : Pt → Pt → Pt
  scalarMult : Pt → Nat → Pt
  scalarBaseMult : Nat → Pt

/-- The discrete-logarithm model of secp256k1: the group generated by `G`
is cyclic of prime order `q`, so `x·G` is represented by `x mod q`; point
addition adds logarithms, `ScalarMult` multiplies them, and coordinate
equality is logarithm equality mod `q`.  (The second coordinate is
constant, standing for the unused `y`.) -/
def expCurve (q : Nat) : Curve where
  q := q
  add := fun A B => ((A.1 + B.1) % q, 0)
  scalarMult := fun A k => (A.1 * k % q, 0)
  scalarBaseMult := fun k => (k % q, 0)

/-- The secp256k1 group order (`curve.Params().N`). -/
def secpN : Nat :=
  115792089237316195423570985008687907852837564279074904382605163141518161494337

/-- An external hash capability (`crypto/sha256` in the source): bytes to a
32-byte digest.  No claim depends on the hash's internals, only on what
byte string is hashed, so it is a parameter throughout. -/
abbrev HashFn := Bytes → Bytes

/-- A Schnorr proof as it travels in round-3 payloads: the compressed `R`
point bytes and the scalar `s` bytes. -/
structure SchnorrProofW where
  r : Bytes
  s : Bytes
  deriving DecidableEq, Repr

/-- An external Schnorr verification capability (`schnorr.Proof.Verify`):
claims only route on its boolean outcome, so it is a parameter. -/
abbrev SchnorrVerify := SchnorrProofW → Pt → Bool

/-! ## Commitment module (`internal/crypto/commitment`) -/

/-- `commitment.Commitment`: the hash `C` and the salt `D`. -/
structure Commitment where
  c : Bytes
  d : Bytes
  deriving DecidableEq, Repr

/-- `commitment.New(data)` with the 32-byte salt passed explicitly (Go
samples it from `crypto/rand`): `C = SHA256(salt ‖ data)`, `D = salt`. -/
def commitmentNew (h : HashFn) (salt : Bytes) (data : Bytes) : Commitment :=
  { c := h (salt ++ data), d := salt }

/-- `commitment.Verify(c, d, data)`: both `c` and `d` must be 32 bytes and
`SHA256(d ‖ data)` must equal `c`. -/
def commitmentVerify (h : HashFn) (c d data : Bytes) : Bool :=
  if c.length ≠ 32 ∨ d.length ≠ 32 then false
  else h (d ++ data) == c

/-! ## Polynomial module (`internal/crypto/polynomial`) -/

/-- `polynomial.New(curve, degree, secret)`: coefficient list
`a_0 … a_degree` with `a_0` the secret when given; the random scalars the
Go code draws from `curve.NewScalar()` are the `rands` stream. -/
def polyNew (secret : Option Nat) (rands : List Nat) (degree : Nat) : List Nat :=
  match secret with
  | some s => s :: rands.take degree
  | none => rands.take (degree + 1)

/-- `Polynomial.Evaluate(x)`: Horner's rule, reducing mod `q` after each
step, starting from the top coefficient exactly as the Go loop does
(a degree-0 polynomial is returned unreduced, like the source). -/
def polyEval (q : Nat) (coeffs : List Nat) (x : Nat) : Nat :=
  match coeffs.reverse with
  | [] => 0
  | top :: rest => rest.foldl (fun res a => (res * x + a) % q) top

/-- Reference form of polynomial evaluation as a power sum
`Σ_k a_k·x^k mod q`, used to relate Horner evaluation and the VSS
check loops. -/
def sumEval (q : Nat) (coeffs : List Nat) (x : Nat) : Nat :=
  (coeffs.enum.map (fun p => p.2 * x ^ p.1)).sum % q

/-! ## Modular inverse (`big.Int.ModInverse`)

Implemented by a fuel-driven extended Euclid so it reduces in the kernel;
`none` exactly when the gcd with the modulus is not 1, which is when Go's
`ModInverse` returns nil. -/

/-- Extended-Euclid worker carrying Bezout coefficients. -/
def egcdAux : Nat → Int → Int → Int → Int → (Int × Int)
  | 0, r0, s0, _, _ => (r0, s0)
  | fuel + 1, r0, s0, r1, s1 =>
      if r1 = 0 then (r0, s0)
      else egcdAux fuel r1 s1 (r0 % r1) (s0 - r0 / r1 * s1)

/-- `new(big.Int).ModInverse(a, n)`: the inverse of `a` mod `n` when
`gcd(a mod n, n) = 1`, otherwise `none`. -/
def modInverse (a n : Nat) : Option Nat :=
  if n = 0 then none
  else
    let a' := a % n
    if Nat.gcd a' n ≠ 1 then none
    else
      let p := egcdAux (a' + n + 1) (a' : Int) 1 (n : Int) 0
      some ((p.2 % (n : Int)).toNat)

/-! ## Paillier keys and persisted key data -/

/-- `paillier.PublicKey`: modulus `n` and cached `n² `. -/
structure PaillierPubKey where
  n : Int
  n2 : Int
  deriving DecidableEq, Repr

/-- `paillier.PrivateKey`: the public key plus `λ = lcm(p-1, q-1)` and
`μ = λ⁻¹ mod n`. -/
structure PaillierPrivKey where
  pub : PaillierPubKey
  lambda : Int
  mu : Int
  deriving DecidableEq, Repr

/-- `keygen.LocalPartySaveData` (the fields the embedded code reads and
writes; unset `*big.Int` fields are zero / `none`). -/
structure KeyData where
  localPartyId : String := ""
  shareId : Nat := 0
  paillierSk : Option PaillierPrivKey := none
  paillierPk : Option PaillierPubKey := none
  peerPaillierPks : List (String × PaillierPubKey) := []
  ui : Nat := 0
  xi : Nat := 0
  xiX : Nat := 0
  xiY : Nat := 0
  publicKeyX : Nat := 0
  publicKeyY : Nat := 0
  ecdsaPubX : Nat := 0
  ecdsaPubY : Nat := 0
  deriving DecidableEq, Repr

/-! ## Signing state machine (`internal/protocol/sign/state.go`) -/

/-- `sign.Signature`. -/
structure Signature where
  r : Nat
  s : Nat
  recId : Int := 0
  deriving DecidableEq, Repr

/-- `sign.PreSignature`: `{R, Rx, Ry, Ki, SigmaI}`. -/
structure PreSignature where
  r : Nat
  rx : Nat
  ry : Nat
  ki : Nat
  sigmaI : Nat
  deriving DecidableEq, Repr

/-- The signing session's `tempData` scratch map, with the dynamically
typed entries given their actual types. -/
structure SignTemp where
  ki : Option Nat := none
  gammai : Option Nat := none
  wi : Option Nat := none
  encK : Option Int := none
  gammaX : Option Nat := none
  gammaY : Option Nat := none
  peerEncK : List (String × Int) := []
  peerGammaX : List (String × Nat) := []
  peerGammaY : List (String × Nat) := []
  betas : List (String × Int) := []
  nus : List (String × Int) := []
  deltaI : Option Nat := none
  sigmaI : Option Nat := none
  r : Option Nat := none
  si : Option Nat := none
  rx : Option Nat := none
  ry : Option Nat := none
  deriving DecidableEq, Repr

/-- `sign.state`: the running signing / presigning session. -/
structure SignState where
  params : Params
  keyData : KeyData
  msgToSign : Option Bytes
  round : Nat
  temp : SignTemp
  received : Buffer
  deriving DecidableEq, Repr

/-- `sign.finishedState`: exactly one of the two fields is populated by
the protocol (signature for signing, preSignature for presigning). -/
structure SignFinished where
  signature : Option Signature := none
  preSignature : Option PreSignature := none
  deriving DecidableEq, Repr

/-- The signing state machine as a closed sum of its two implementations
of `tss.StateMachine`. -/
inductive SignSM
  | running (s : SignState)
  | finished (f : SignFinished)
  deriving DecidableEq, Repr

/-- A signing session output as returned by `Result()`. -/
inductive SignOutput
  | sig (s : Signature)
  | pre (p : PreSignature)
  deriving DecidableEq, Repr

/-- `sign.finishedState.Result`: the signature when present, otherwise the
presignature. -/
def signFinishedResult (f : SignFinished) : Option SignOutput :=
  match f.signature with
  | some s => some (.sig s)
  | none => f.preSignature.map .pre

/-- `sign.state.Update` (state.go lines 64-122): reject any round number
other than the current one; drop own messages returning a nil machine;
reject per-sender per-type duplicates before appending; wait until every
other party has supplied the round's expected message count, then hand
over to the round dispatch (`s.nextRound()`), which is a parameter here
exactly as the harness/round-body split in the source. -/
def signStateUpdate (nextRound : SignState → UpdateRes SignSM)
    (s : SignState) (m : Msg) : UpdateRes SignSM :=
  if m.round ≠ s.round then
    ⟨none, [], some (.plain ("received message for round " ++ toString m.round
      ++ ", expected " ++ toString s.round))⟩
  else if m.sender == s.params.partyId then
    ⟨none, [], none⟩
  else if s.received.hasType m.sender m.mtype then
    ⟨none, [], some (.plain ("duplicate message type " ++ m.mtype
      ++ " from party " ++ m.sender))⟩
  else
    let s' := { s with received := s.received.add m.sender m }
    if s'.received.length < s.params.parties.length - 1 then
      ⟨some (.running s'), [], none⟩
    else
      let expectedCount :=
        if s.round = 1 ∨ s.round = 2 ∨ s.round = 3 ∨ s.round = 4 then 1 else 0
      if s'.received.any (fun e => e.2.length < expectedCount) then
        ⟨some (.running s'), [], none⟩
      else nextRound s'

/-- `sign.finishedState.Update`: always `(nil, nil, tss.ErrProtocolDone)`. -/
def signFinishedUpdate (_f : SignFinished) (_m : Msg) : UpdateRes SignSM :=
  ⟨none, [], some .protocolDone⟩

/-! ## KeyGen state machine (keygen `state.go`, current revision) -/

/-- The keygen session's `tempData` entries.  Go keeps the VSS commitment
list flattened as `[x0, y0, x1, y1, …]`; we keep coordinate pairs and
flatten at the serialisation boundary. -/
structure KeygenTemp where
  polynomial : Option (List Nat) := none
  decommitSalt : Option Bytes := none
  vssCommitments : List Pt := []
  peerCommitments : List (String × Bytes) := []
  allVss : List (String × List Pt) := []
  deriving DecidableEq, Repr

/-- `keygen.state`. -/
structure KeygenState where
  params : Params
  round : Nat
  saveData : KeyData
  temp : KeygenTemp
  received : Buffer
  deriving DecidableEq, Repr

/-- The keygen state machine sum. -/
inductive KeygenSM
  | running (s : KeygenState)
  | finished (data : KeyData)
  deriving DecidableEq, Repr

/-- `keygen.finishedState.Result`. -/
def keygenFinishedResult (data : KeyData) : Option KeyData := some data

/-- `keygen.state.Update`: same gating as signing, with keygen's
expected-multiplicity table (`OneRoundKeyGen`: 2 in round 1; standard:
1, 2, 1 in rounds 1-3). -/
def keygenStateUpdate (nextRound : KeygenState → UpdateRes KeygenSM)
    (s : KeygenState) (m : Msg) : UpdateRes KeygenSM :=
  if m.round ≠ s.round then
    ⟨none, [], some (.plain ("received message for round " ++ toString m.round
      ++ ", expected " ++ toString s.round))⟩
  else if m.sender == s.params.partyId then
    ⟨none, [], none⟩
  else if s.received.hasType m.sender m.mtype then
    ⟨none, [], some (.plain ("duplicate message type " ++ m.mtype
      ++ " from party " ++ m.sender))⟩
  else
    let s' := { s with received := s.received.add m.sender m }
    let expectedCount :=
      if s.params.oneRoundKeyGen then
        if s.round = 1 then 2 else 0
      else
        if s.round = 1 then 1 else if s.round = 2 then 2
        else if s.round = 3 then 1 else 0
    if s'.received.length < s.params.parties.length - 1 then
      ⟨some (.running s'), [], none⟩
    else if s'.received.any (fun e => e.2.length < expectedCount) then
      ⟨some (.running s'), [], none⟩
    else nextRound s'

/-- `keygen.finishedState.Update`: always `(nil, nil, tss.ErrProtocolDone)`. -/
def keygenFinishedUpdate (_data : KeyData) (_m : Msg) : UpdateRes KeygenSM :=
  ⟨none, [], some .protocolDone⟩

/-! ## Refresh state machine (`internal/protocol/refresh/state.go`) -/

/-- The refresh session's `tempData` entries. -/
structure RefreshTemp where
  polynomial : Option (List Nat) := none
  decommitSalt : Option Bytes := none
  vssCommitments : List Pt := []
  peerCommitments : List (String × Bytes) := []
  allVss : List (String × List Pt) := []
  deriving DecidableEq, Repr

/-- `refresh.state`. -/
structure RefreshState where
  params : Params
  oldKeyData : KeyData
  round : Nat
  saveData : KeyData
  temp : RefreshTemp
  received : Buffer
  deriving DecidableEq, Repr

/-- The refresh state machine sum. -/
inductive RefreshSM
  | running (s : RefreshState)
  | finished (saveData : KeyData)
  deriving DecidableEq, Repr

/-- `refresh.finishedState.Result`. -/
def refreshFinishedResult (saveData : KeyData) : Option KeyData := some saveData

/-- `refresh.NewStateMachine`'s initial save data: the public key is
copied from the old key data up front ("Public Key remains the same"). -/
def refreshInitialSaveData (params : Params) (old : KeyData) : KeyData :=
  { localPartyId := params.partyId
    ecdsaPubX := old.ecdsaPubX
    ecdsaPubY := old.ecdsaPubY
    publicKeyX := old.publicKeyX
    publicKeyY := old.publicKeyY }

/-- `refresh.state.Update`: same gating as signing with refresh's
expected-multiplicity table (1, 2, 1, 1 for rounds 1-4). -/
def refreshStateUpdate (nextRound : RefreshState → UpdateRes RefreshSM)
    (s : RefreshState) (m : Msg) : UpdateRes RefreshSM :=
  if m.round ≠ s.round then
    ⟨none, [], some (.plain ("received message for round " ++ toString m.round
      ++ ", expected " ++ toString s.round))⟩
  else if m.sender == s.params.partyId then
    ⟨none, [], none⟩
  else if s.received.hasType m.sender m.mtype then
    ⟨none, [], some (.plain ("duplicate message type " ++ m.mtype
      ++ " from party " ++ m.sender))⟩
  else
    let s' := { s with received := s.received.add m.sender m }
    let expectedCount :=
      if s.round = 1 then 1 else if s.round = 2 then 2
      else if s.round = 3 then 1 else if s.round = 4 then 1 else 0
    if s'.received.length < s.params.parties.length - 1 then
      ⟨some (.running s'), [], none⟩
    else if s'.received.any (fun e => e.2.length < expectedCount) then
      ⟨some (.running s'), [], none⟩
    else nextRound s'

/-- `refresh.finishedState.Update`: always `(nil, nil, tss.ErrProtocolDone)`. -/
def refreshFinishedUpdate (_saveData : KeyData) (_m : Msg) : UpdateRes RefreshSM :=
  ⟨none, [], some .protocolDone⟩

/-! ## Reshare state machine (reshare `state.go`) -/

/-- `reshare.state` (the fields its `Update` reads). -/
structure ReshareState where
  params : Params
  oldParams : Params
  oldKeyData : Option KeyData
  round : Nat
  saveData : Option KeyData
  received : Buffer
  isOldCommittee : Bool
  isNewCommittee : Bool
  deriving DecidableEq, Repr

/-- The reshare state machine sum. -/
inductive ReshareSM
  | running (s : ReshareState)
  | finished (saveData : Option KeyData)
  deriving DecidableEq, Repr

/-- `reshare.finishedState.Result` (old-only parties finish with a nil
save-data pointer, so their result is empty). -/
def reshareFinishedResult (saveData : Option KeyData) : Option KeyData :=
  saveData

/-- The distinct ids in Old ∪ New minus the local party, the expected
sender set for reshare rounds 1 and 2. -/
def reshareUnionCount (s : ReshareState) : Nat :=
  (((s.oldParams.parties ++ s.params.parties).eraseDups).filter
    (fun id => !(id == s.params.partyId))).length

/-- `reshare.state.Update`: unlike the other three protocols, messages for
an earlier round are silently dropped, returning the unchanged state;
messages for a later round are an error.  Then the same self-drop and
duplicate gating, followed by reshare's asymmetric readiness rules. -/
def reshareStateUpdate (nextRound : ReshareState → UpdateRes ReshareSM)
    (s : ReshareState) (m : Msg) : UpdateRes ReshareSM :=
  if m.round < s.round then
    ⟨some (.running s), [], none⟩
  else if m.round > s.round then
    ⟨none, [], some (.plain ("received message for round " ++ toString m.round
      ++ ", expected " ++ toString s.round))⟩
  else if m.sender == s.params.partyId then
    ⟨none, [], none⟩
  else if s.received.hasType m.sender m.mtype then
    ⟨none, [], some (.plain ("duplicate message type " ++ m.mtype
      ++ " from party " ++ m.sender))⟩
  else
    let s' := { s with received := s.received.add m.sender m }
    let ready :=
      if s.round = 1 then
        decide (s'.received.length ≥ reshareUnionCount s)
      else if s.round = 2 then
        let distinctDecommits := (s'.received.filter
          (fun e => e.2.any (fun mm => mm.mtype == "ReshareRound2_Decommit"))).length
        let sharesReceived := (s'.received.filter
          (fun e => e.2.any (fun mm => mm.mtype == "ReshareRound2_Share"))).length
        let expectedShares :=
          if s.isNewCommittee then
            s.oldParams.parties.length - (if s.isOldCommittee then 1 else 0)
          else 0
        if distinctDecommits ≥ reshareUnionCount s then
          if !s.isNewCommittee then true
          else decide (sharesReceived ≥ expectedShares)
        else false
      else
        decide (s'.received.length ≥ s.params.parties.length - 1)
    if !ready then ⟨some (.running s'), [], none⟩
    else nextRound s'

/-- `reshare.finishedState.Update`: returns the finished state itself with
no error and no "protocol done" signal (unlike the other protocols). -/
def reshareFinishedUpdate (saveData : Option KeyData) (_m : Msg) :
    UpdateRes ReshareSM :=
  ⟨some (.finished saveData), [], none⟩

/-! ## Concrete fixtures for witnesses and counterexamples -/

/-- Identity-style round dispatch used to close terms over the harness's
dispatch parameter in concrete evaluations. -/
def dispSign : SignState → UpdateRes SignSM :=
  fun s => ⟨some (.running s), [], none⟩

/-- Identity-style dispatch for keygen concrete evaluations. -/
def dispKeygen : KeygenState → UpdateRes KeygenSM :=
  fun s => ⟨some (.running s), [], none⟩

/-- Identity-style dispatch for refresh concrete evaluations. -/
def dispRefresh : RefreshState → UpdateRes RefreshSM :=
  fun s => ⟨some (.running s), [], none⟩

/-- Identity-style dispatch for reshare concrete evaluations. -/
def dispReshare : ReshareState → UpdateRes ReshareSM :=
  fun s => ⟨some (.running s), [], none⟩

/-- A three-party session configuration as in the repository's tests. -/
def sampleParams : Params :=
  { partyId := "1", parties := ["1", "2", "3"], threshold := 1 }

/-- A signing session sitting in round 2. -/
def sampleSignState : SignState :=
  { params := sampleParams, keyData := {}, msgToSign := some [1, 2]
    round := 2, temp := {}, received := [] }

/-- A keygen session sitting in round 2. -/
def sampleKeygenState : KeygenState :=
  { params := sampleParams, round := 2, saveData := {}, temp := {}
    received := [] }

/-- A refresh session sitting in round 2. -/
def sampleRefreshState : RefreshState :=
  { params := sampleParams, oldKeyData := {}, round := 2, saveData := {}
    temp := {}, received := [] }

/-- A reshare session sitting in round 2 (same committee on both sides). -/
def sampleReshareState : ReshareState :=
  { params := sampleParams, oldParams := sampleParams, oldKeyData := none
    round := 2, saveData := none, received := []
    isOldCommittee := true, isNewCommittee := true }

/-- A stale round-1 broadcast from party 2. -/
def sampleMsgR1 : Msg :=
  { sender := "2", mtype := "SignRound1", round := 1, isBroadcast := true
    recipients := [], payload := .raw [] }

/-- A premature round-3 broadcast from party 2. -/
def sampleMsgR3 : Msg :=
  { sender := "2", mtype := "SignRound3_Delta", round := 3
    isBroadcast := true, recipients := [], payload := .raw [] }

/-- A current-round (round 2) message from party 2. -/
def sampleMsgR2 : Msg :=
  { sender := "2", mtype := "SignRound2_MtA", round := 2
    isBroadcast := false, recipients := ["1"], payload := .raw [] }

/-- A current-round (round 2) message from the local party itself. -/
def sampleSelfMsgR2 : Msg :=
  { sender := "1", mtype := "SignRound2_MtA", round := 2
    isBroadcast := false, recipients := ["2"], payload := .raw [] }

/-- A signing state in round 2 that has already buffered party 2's
round-2 MtA message. -/
def sampleSignStateDup : SignState :=
  { sampleSignState with received := [("2", [sampleMsgR2])] }

/-- A keygen state in round 2 that has already buffered party 2's
round-2 message. -/
def sampleKeygenStateDup : KeygenState :=
  { sampleKeygenState with received := [("2", [sampleMsgR2])] }

/-- A refresh state in round 2 that has already buffered party 2's
round-2 message. -/
def sampleRefreshStateDup : RefreshState :=
  { sampleRefreshState with received := [("2", [sampleMsgR2])] }

/-- A reshare state in round 2 that has already buffered party 2's
round-2 message. -/
def sampleReshareStateDup : ReshareState :=
  { sampleReshareState with received := [("2", [sampleMsgR2])] }

/-! ## Paillier module (`internal/crypto/paillier`)

The arithmetic mirrors the Go source on `Int`: Go's `big.Int.Div` and
`big.Int.Mod` are Euclidean division and modulus, which are Lean's `/`
and `%` on `Int`. -/

/-- Key material `paillier.GenerateKey` derives from the two sampled
primes: `n = p·q`, cached `n²`, `λ = (p-1)(q-1)/gcd(p-1, q-1)` (the lcm)
and `μ = λ⁻¹ mod n` (characterised by hypothesis in the theorems, as the
source obtains it from `big.Int.ModInverse`). -/
def paillierKeyFrom (p q : Nat) (mu : Int) : PaillierPrivKey :=
  let n : Int := ((p * q : Nat) : Int)
  { pub := { n := n, n2 := n * n }
    lambda := (((p - 1) * (q - 1) / Nat.gcd (p - 1) (q - 1) : Nat) : Int)
    mu := mu }

/-- Ciphertext value produced by `PublicKey.Encrypt` (and its
deterministic variants) for message `m` and nonce `r`:
`(1 + n·m) · (r^n mod n²) mod n²`. -/
def encVal (pk : PaillierPubKey) (m r : Int) : Int :=
  (1 + pk.n * m) * (r ^ pk.n.toNat % pk.n2) % pk.n2

/-- `paillier.PublicKey.Encrypt` with the sampled nonce `r` made explicit
(`EncryptWithNonce` is the same computation with a caller-supplied `r`):
errors unless `m ∈ [0, n)`. -/
def pkEncrypt (pk : PaillierPubKey) (m r : Int) : Except String Int :=
  if m < 0 ∨ pk.n ≤ m then
    .error "paillier: message m must be in range [0, n)"
  else .ok (encVal pk m r)

/-- `paillier.PrivateKey.Decrypt`: errors unless `c ∈ [0, n²)`, then
`m = L(c^λ mod n²) · μ mod n` with `L(u) = (u-1)/n`. -/
def skDecrypt (sk : PaillierPrivKey) (c : Int) : Except String Int :=
  if c < 0 ∨ sk.pub.n2 ≤ c then
    .error "paillier: ciphertext c must be in range [0, n^2)"
  else
    let u := c ^ sk.lambda.toNat % sk.pub.n2
    let l := (u - 1) / sk.pub.n
    .ok (l * sk.mu % sk.pub.n)

/-- `paillier.PublicKey.Add`: homomorphic addition, `c₁·c₂ mod n²`. -/
def pkAdd (pk : PaillierPubKey) (c1 c2 : Int) : Int := c1 * c2 % pk.n2

/-- `paillier.PublicKey.Mul`: homomorphic scalar multiplication,
`c₁^k mod n²` (the scalar is a non-negative integer). -/
def pkMul (pk : PaillierPubKey) (c1 : Int) (k : Nat) : Int :=
  c1 ^ k % pk.n2

/-! ## Commit-data serialisation (keygen and refresh rounds 1-2) -/

/-- Flatten coordinate pairs to the `[x0, y0, x1, y1, …]` layout the Go
code keeps its VSS commitment slices in. -/
def flattenPts (ps : List Pt) : List Nat :=
  (ps.map (fun p => [p.1, p.2])).flatten

/-- Fixed-width commit-data serialisation used by keygen round 2's
decommit: Paillier `N` zero-padded big-endian to 256 bytes, then each VSS
point coordinate zero-padded big-endian to 32 bytes, in coefficient
order. -/
def fixedWidthCommitData (paillierN : Nat) (vss : List Pt) : Bytes :=
  padLeft 256 (natToBytesBE paillierN) ++
    ((flattenPts vss).map (fun coord => padLeftTrunc 32 (natToBytesBE coord))).flatten

/-- Refresh commit-data serialisation over the already-flattened VSS
coordinate list: `encoding/json` of the struct
`CommitData{PaillierN []byte; VSS []*big.Int}` — the `PaillierN` bytes
base64-encoded in a JSON string, the coordinates as decimal JSON
numbers. -/
def refreshCommitJsonFlat (paillierN : Nat) (vssFlat : List Nat) : Bytes :=
  strBytes "\x7b\"PaillierN\":\"" ++ base64Encode (natToBytesBE paillierN) ++
    strBytes "\",\"VSS\":[" ++
    commaJoin (vssFlat.map natDecimalBytes) ++ strBytes "]\x7d"

/-- Refresh commit-data serialisation from coordinate pairs. -/
def refreshCommitJsonBytes (paillierN : Nat) (vss : List Pt) : Bytes :=
  refreshCommitJsonFlat paillierN (flattenPts vss)

/-- Raw bytes of a payload (round-1/2 messages carry raw byte payloads). -/
def Payload.bytes? : Payload → Bytes
  | .raw bs => bs
  | _ => []

/-! ## KeyGen round 1 (keygen `round_1.go`) -/

/-- keygen `state.round1`: generate the Paillier key (passed in with the
salt, as the sampled randomness), commit to the public key bytes — the
unpadded `N.Bytes()` only, with no VSS data ("For now, let's serialize
the public key to bytes") — and broadcast the commitment hash. -/
def keygenRound1 (h : HashFn) (salt : Bytes) (paillierSk : PaillierPrivKey)
    (s : KeygenState) : UpdateRes KeygenSM :=
  let pkBytes := natToBytesBE paillierSk.pub.n.toNat
  let comm := commitmentNew h salt pkBytes
  let s' := { s with
    saveData := { s.saveData with
      paillierSk := some paillierSk, paillierPk := some paillierSk.pub }
    temp := { s.temp with decommitSalt := some comm.d } }
  ⟨some (.running s'),
    [{ sender := s.params.partyId, mtype := "KeyGenRound1", round := 1
       isBroadcast := true, recipients := [], payload := .raw comm.c }], none⟩

/-! ## KeyGen round 2 (keygen `round2`, fixed-width revision) -/

/-- VSS share messages sent by keygen round 2: for each peer at 0-based
list position `i` (skipping self), a P2P message carrying
`F(i+1) `'s big-endian bytes. -/
def keygenRound2Shares (C : Curve) (partyId : String) (parties : List String)
    (coeffs : List Nat) : List Msg :=
  parties.enum.filterMap (fun ip =>
    if ip.2 == partyId then none
    else some { sender := partyId, mtype := "KeyGenRound2_Share", round := 2
                isBroadcast := false, recipients := [ip.2]
                payload := .raw (natToBytesBE (polyEval C.q coeffs (ip.1 + 1))) })

/-- keygen `state.round2`: store the round-1 commitments, broadcast the
decommitment `salt ‖ CommitData` with the fixed-width serialisation
(`N` padded to 256 bytes, coordinates to 32), and send each peer its VSS
share evaluated at the peer's list position + 1. -/
def keygenRound2 (C : Curve) (s : KeygenState) : UpdateRes KeygenSM :=
  let peerCommitments := (s.received.filter (fun e => !e.2.isEmpty)).map
    (fun e => (e.1, (e.2.headI).payload.bytes?))
  match s.temp.decommitSalt with
  | none => ⟨none, [], some (.plain "missing decommitment salt")⟩
  | some decommitSalt =>
    match s.saveData.paillierPk with
    | none => ⟨none, [], some (.plain "missing paillier key")⟩
    | some paillierPk =>
      match s.temp.polynomial with
      | none => ⟨none, [], some (.plain "missing polynomial")⟩
      | some coeffs =>
        let decommitData :=
          fixedWidthCommitData paillierPk.n.toNat s.temp.vssCommitments
        let payload := decommitSalt ++ decommitData
        let bcast : Msg :=
          { sender := s.params.partyId, mtype := "KeyGenRound2_Decommit"
            round := 2, isBroadcast := true, recipients := []
            payload := .raw payload }
        let shares :=
          keygenRound2Shares C s.params.partyId s.params.parties coeffs
        let s' := { s with
          round := 2
          received := []
          temp := { s.temp with peerCommitments := peerCommitments } }
        ⟨some (.running s'), bcast :: shares, none⟩

/-! ## Refresh rounds 1-2 (refresh `round_1.go`, `round_2.go`) -/

/-- refresh `state.round1`: generate a fresh Paillier key pair and a
zero-hole polynomial (`polynomial.New` with secret 0), compute the VSS
commitments, and broadcast the hash commitment of the JSON-serialised
`CommitData{PaillierN, VSS}`. -/
def refreshRound1 (h : HashFn) (C : Curve) (salt : Bytes)
    (paillierSk : PaillierPrivKey) (polyRands : List Nat)
    (s : RefreshState) : UpdateRes RefreshSM :=
  let coeffs := polyNew (some 0) polyRands s.params.threshold
  let vss := coeffs.map C.scalarBaseMult
  let cdata := refreshCommitJsonBytes paillierSk.pub.n.toNat vss
  let comm := commitmentNew h salt cdata
  let s' := { s with
    saveData := { s.saveData with
      paillierSk := some paillierSk, paillierPk := some paillierSk.pub }
    temp := { s.temp with
      polynomial := some coeffs
      vssCommitments := vss
      decommitSalt := some comm.d } }
  ⟨some (.running s'),
    [{ sender := s.params.partyId, mtype := "RefreshRound1", round := 1
       isBroadcast := true, recipients := [], payload := .raw comm.c }], none⟩

/-- VSS share messages sent by refresh round 2, evaluated at each peer's
list position + 1 (skipping self). -/
def refreshRound2Shares (C : Curve) (partyId : String) (parties : List String)
    (coeffs : List Nat) : List Msg :=
  parties.enum.filterMap (fun ip =>
    if ip.2 == partyId then none
    else some { sender := partyId, mtype := "RefreshRound2_Share", round := 2
                isBroadcast := false, recipients := [ip.2]
                payload := .raw (natToBytesBE (polyEval C.q coeffs (ip.1 + 1))) })

/-- refresh `state.round2`: store the round-1 commitments, broadcast the
decommitment `salt ‖ CommitData` re-serialised with the same JSON
encoding as round 1, and send the P2P shares. -/
def refreshRound2 (C : Curve) (s : RefreshState) : UpdateRes RefreshSM :=
  let peerCommitments := (s.received.filter (fun e => !e.2.isEmpty)).map
    (fun e => (e.1, (e.2.headI).payload.bytes?))
  match s.temp.decommitSalt with
  | none => ⟨none, [], some (.plain "missing decommitment salt")⟩
  | some decommitSalt =>
    match s.saveData.paillierPk with
    | none => ⟨none, [], some (.plain "missing paillier key")⟩
    | some paillierPk =>
      match s.temp.polynomial with
      | none => ⟨none, [], some (.plain "missing polynomial")⟩
      | some coeffs =>
        let decommitData :=
          refreshCommitJsonBytes paillierPk.n.toNat s.temp.vssCommitments
        let payload := decommitSalt ++ decommitData
        let bcast : Msg :=
          { sender := s.params.partyId, mtype := "RefreshRound2_Decommit"
            round := 2, isBroadcast := true, recipients := []
            payload := .raw payload }
        let shares :=
          refreshRound2Shares C s.params.partyId s.params.parties coeffs
        let s' := { s with
          round := 2
          received := []
          temp := { s.temp with peerCommitments := peerCommitments } }
        ⟨some (.running s'), bcast :: shares, none⟩

/-! ## Claim C7: commit-data serialisation -/

/-- A 32-byte salt of zeros for concrete serialisation runs. -/
def c7Salt : Bytes := List.replicate 32 0

/-- A concrete Paillier private key with modulus 187 = 11·17 for
serialisation fixtures (only `n` matters to the serialisers). -/
def c7PaillierSk : PaillierPrivKey :=
  { pub := { n := 187, n2 := 187 * 187 }, lambda := 80, mu := 101 }

/-- Concrete VSS commitment points for serialisation fixtures. -/
def c7Vss : List Pt := [(5, 7), (11, 13)]

/-- A refresh state ready to run round 2 with the concrete fixtures. -/
def c7RefreshState : RefreshState :=
  { params := sampleParams, oldKeyData := {}, round := 1
    saveData := { paillierPk := some c7PaillierSk.pub }
    temp := { decommitSalt := some c7Salt, vssCommitments := c7Vss
              polynomial := some [0, 3] }
    received := [] }

/-- A keygen state ready to run round 2 with the concrete fixtures. -/
def c7KeygenState : KeygenState :=
  { params := sampleParams, round := 1
    saveData := { paillierPk := some c7PaillierSk.pub }
    temp := { decommitSalt := some c7Salt, vssCommitments := c7Vss
              polynomial := some [0, 3] }
    received := [] }

/-- A constant 32-byte digest standing in for SHA-256 in closed
evaluations (the hash is an external capability parameter). -/
def c7Hash : HashFn := fun _ => List.replicate 32 1

/-! ## JSON decoding of refresh CommitData (`json.Unmarshal` model) -/

/-- Decode one base64 character. -/
def base64CharDecode (c : Nat) : Option Nat :=
  if 65 ≤ c ∧ c ≤ 90 then some (c - 65)
  else if 97 ≤ c ∧ c ≤ 122 then some (c - 71)
  else if 48 ≤ c ∧ c ≤ 57 then some (c + 4)
  else if c = 43 then some 62
  else if c = 47 then some 63
  else none

/-- Decode standard base64 with padding, quad by quad. -/
def base64Decode : Bytes → Option Bytes
  | [] => some []
  | c0 :: c1 :: c2 :: c3 :: rest =>
      match base64CharDecode c0, base64CharDecode c1 with
      | some a, some b =>
          if c2 = 61 then
            if c3 = 61 ∧ rest = [] then some [a * 4 + b / 16] else none
          else
            match base64CharDecode c2 with
            | some cc =>
                if c3 = 61 then
                  if rest = [] then some [a * 4 + b / 16, b % 16 * 16 + cc / 4]
                  else none
                else
                  match base64CharDecode c3 with
                  | some d =>
                      (base64Decode rest).map
                        (fun tl => (a * 4 + b / 16) :: (b % 16 * 16 + cc / 4) ::
                          (cc % 4 * 64 + d) :: tl)
                  | none => none
            | none => none
      | _, _ => none
  | _ => none

/-- Split a byte string at the first occurrence of a byte (exclusive). -/
def splitAtByte (b : Nat) : Bytes → Option (Bytes × Bytes)
  | [] => none
  | x :: xs =>
      if x = b then some ([], xs)
      else (splitAtByte b xs).map (fun p => (x :: p.1, p.2))

/-- Split a byte string on every occurrence of a byte. -/
def splitOnByte (b : Nat) : Bytes → List Bytes
  | [] => [[]]
  | x :: xs =>
      let r := splitOnByte b xs
      if x = b then [] :: r
      else
        match r with
        | g :: gs => (x :: g) :: gs
        | [] => [[x]]

/-- Parse an ASCII decimal numeral. -/
def parseDecBytes (bs : Bytes) : Option Nat :=
  if bs.isEmpty ∨ bs.any (fun c => c < 48 ∨ 57 < c) then none
  else some (bs.foldl (fun acc c => acc * 10 + (c - 48)) 0)

/-- Decode the JSON produced for refresh `CommitData`: recover the
Paillier `N` bytes and the flat VSS coordinate list.  Models
`json.Unmarshal` on exactly the encoding `refreshCommitJsonFlat` emits. -/
def refreshJsonDecode (data : Bytes) : Option (Nat × List Nat) :=
  let pre := strBytes "\x7b\"PaillierN\":\""
  if data.take pre.length ≠ pre then none
  else
    match splitAtByte 34 (data.drop pre.length) with
    | none => none
    | some (b64, rest2) =>
        match base64Decode b64 with
        | none => none
        | some nBytes =>
            let mid := strBytes ",\"VSS\":["
            if rest2.take mid.length ≠ mid then none
            else
              let rest3 := rest2.drop mid.length
              let suffix := strBytes "]\x7d"
              if rest3.length < suffix.length ∨
                  rest3.drop (rest3.length - suffix.length) ≠ suffix then none
              else
                let inner := rest3.take (rest3.length - suffix.length)
                if inner.isEmpty then some (bytesToNat nBytes, [])
                else
                  match (splitOnByte 44 inner).mapM parseDecBytes with
                  | none => none
                  | some vss => some (bytesToNat nBytes, vss)

/-! ## JSON decoding of reshare CommitData

Reshare's `CommitData` (reshare `round_2.go`) serialises with snake_case
tags, all fields `omitempty`: the emitted objects hold, in struct order,
an optional `"paillier_n"` base64 string, an optional `"vss"` array of
decimal big.Ints (flattened coordinates), and optional
`"global_pub_x"`/`"global_pub_y"` base64 strings that reshare round 3's
local `CommitData` (reshare_test.go, second staged revision) ignores. -/

/-- Parse the comma-separated fields of a reshare CommitData object
(cursor just past `\x7b` or a comma), accumulating the `paillier_n` and
`vss` values; the fuel is the remaining byte count, which every field
strictly consumes. -/
def reshareJsonFields : Nat → Bytes → Option Nat → Option (List Nat) →
    Option (Option Nat × Option (List Nat))
  | 0, _, _, _ => none
  | _ + 1, [], _, _ => none
  | fuel + 1, b :: rest, pn, vss =>
      if b ≠ 34 then none
      else
        match splitAtByte 34 rest with
        | none => none
        | some (key, rest1) =>
            match rest1 with
            | 58 :: rest2 =>
                let step : Option (Option Nat × Option (List Nat) × Bytes) :=
                  if key = strBytes "paillier_n" then
                    match rest2 with
                    | 34 :: rest3 =>
                        match splitAtByte 34 rest3 with
                        | none => none
                        | some (b64, rest4) =>
                            match base64Decode b64 with
                            | none => none
                            | some nb =>
                                some (some (bytesToNat nb), vss, rest4)
                    | _ => none
                  else if key = strBytes "vss" then
                    match rest2 with
                    | 91 :: rest3 =>
                        match splitAtByte 93 rest3 with
                        | none => none
                        | some (inner, rest4) =>
                            if inner.isEmpty then some (pn, some [], rest4)
                            else
                              match (splitOnByte 44 inner).mapM
                                  parseDecBytes with
                              | none => none
                              | some l => some (pn, some l, rest4)
                    | _ => none
                  else if key = strBytes "global_pub_x" ∨
                      key = strBytes "global_pub_y" then
                    match rest2 with
                    | 34 :: rest3 =>
                        match splitAtByte 34 rest3 with
                        | none => none
                        | some (_, rest4) => some (pn, vss, rest4)
                    | _ => none
                  else none
                match step with
                | none => none
                | some (pn', vss', rest4) =>
                    match rest4 with
                    | 44 :: rest5 => reshareJsonFields fuel rest5 pn' vss'
                    | [125] => some (pn', vss')
                    | _ => none
            | _ => none

/-- `json.Unmarshal` of a reshare decommit's CommitData: `none` models an
unmarshal error, the inner options the `omitempty` fields the peer did
not send. -/
def reshareJsonDecode (data : Bytes) : Option (Option Nat × Option (List Nat)) :=
  match data with
  | [123, 125] => some (none, none)
  | 123 :: rest => reshareJsonFields rest.length rest none none
  | _ => none

/-! ## VSS share verification (keygen/refresh round 3) -/

/-- Pair up a flat `[x0, y0, x1, y1, …]` coordinate list. -/
def ptsOfFlat : List Nat → List Pt
  | a :: b :: rest => (a, b) :: ptsOfFlat rest
  | _ => []

/-- The right-hand side `Σ_{k=0..t} (i^k mod q)·A_k` of the VSS share
check, accumulated exactly as the Go loop does (`A_k` read by index,
missing entries as the zero pair — the Go code would panic there). -/
def vssCheckRhsRange (C : Curve) (idx t : Nat) (pts : List Pt) : Pt :=
  (List.range t).foldl (fun acc k =>
    C.add acc (C.scalarMult (pts.getD (k + 1) (0, 0)) (idx ^ (k + 1) % C.q)))
    (C.scalarMult (pts.getD 0 (0, 0)) (idx ^ 0 % C.q))

/-- The VSS share check `share·G == Σ_k (i^k)·A_k` with `k` running to a
given top coefficient index `t`. -/
def vssShareCheckT (C : Curve) (idx t : Nat) (pts : List Pt)
    (share : Nat) : Bool :=
  C.scalarBaseMult share == vssCheckRhsRange C idx t pts

/-! ## Refresh round 3 (refresh `round_3.go`) -/

/-- Data recovered from one peer in refresh round 3. -/
structure RefreshPeerData where
  id : String
  paillierN : Nat
  share : Nat
  vssFlat : List Nat
  deriving DecidableEq, Repr

/-- Association-list lookup with a default (Go map indexing; a duplicate
key cannot arise because the buffer keeps keys unique). -/
def lookupD {α : Type} (l : List (String × α)) (id : String) (d : α) : α :=
  match l.find? (fun e => e.1 == id) with
  | some e => e.2
  | none => d

/-- Per-peer verification block of refresh `state.round3`: split the
decommit payload into salt and data, verify the hash commitment
(failures are plain `fmt.Errorf` strings that merely interpolate the
peer id), unmarshal the JSON commit data, and check the VSS share
against the decoded points (`k < len(VSS)/2`). -/
def refreshRound3VerifyPeer (h : HashFn) (C : Curve) (myIdx : Nat)
    (comm : Bytes) (id : String) (decommitMsg shareMsg : Option Msg) :
    Except Err RefreshPeerData :=
  match decommitMsg, shareMsg with
  | some dm, some sm =>
      let payload := dm.payload.bytes?
      if payload.length < 32 then .error (.plain "invalid decommitment")
      else
        let salt := payload.take 32
        let data := payload.drop 32
        if ¬ commitmentVerify h comm salt data then
          .error (.plain ("commitment verification failed for " ++ id))
        else
          match refreshJsonDecode data with
          | none =>
              .error (.plain ("failed to unmarshal commit data from " ++ id))
          | some (paillierN, vssFlat) =>
              let share := bytesToNat sm.payload.bytes?
              let pts := ptsOfFlat vssFlat
              if pts.isEmpty then
                .error (.plain ("vss share verification failed for party "
                  ++ id))
              else if vssShareCheckT C myIdx (pts.length - 1) pts share then
                .ok ⟨id, paillierN, share, vssFlat⟩
              else
                .error (.plain ("vss share verification failed for party "
                  ++ id))
  | _, _ => .error (.plain ("missing messages from party " ++ id))

/-- Per-peer verification block of reshare `state.round3` (reshare_test.go,
second staged revision — the `round3` that part_000's `nextRound`
dispatches to): a failing hash commitment surfaces
`tss.NewBlame(decommitMsg.From(), "commitment verification failed", nil)`
and a failing VSS share check surfaces
`tss.NewBlame(shareMsg.From(), "vss share verification failed", nil)` —
structured `Blame` errors carrying the offender's party id, exactly as in
keygen.  A peer without a decommit is skipped; the VSS check only runs
when the decommit carried a `vss` field and a share arrived, comparing
`share·G` to `Σ_k (myIdx^k mod N)·A_k` over the flattened coordinate
pairs (an empty committed-point list would leave the Go right-hand side
nil and panic; only nonempty lists are relied on). -/
def reshareRound3VerifyPeer (h : HashFn) (C : Curve) (myIdx : Nat)
    (comm : Bytes) (id : String) (decommitMsg shareMsg : Option Msg) :
    Except Err (Option Nat × Option (List Nat)) :=
  match decommitMsg with
  | none => .ok (none, none)
  | some dm =>
      let payload := dm.payload.bytes?
      if payload.length < 32 then .error (.plain "invalid decommitment")
      else
        let salt := payload.take 32
        let data := payload.drop 32
        if ¬ commitmentVerify h comm salt data then
          .error (.blame dm.sender "commitment verification failed")
        else
          match reshareJsonDecode data with
          | none =>
              .error (.plain ("failed to unmarshal commit data from " ++ id))
          | some (paillierN, vssFlat) =>
              match vssFlat, shareMsg with
              | some vss, some sm =>
                  let share := bytesToNat sm.payload.bytes?
                  let pts := ptsOfFlat vss
                  if vssShareCheckT C myIdx (pts.length - 1) pts share then
                    .ok (paillierN, some vss)
                  else
                    .error (.blame sm.sender "vss share verification failed")
              | _, _ => .ok (paillierN, vssFlat)

/-- Iterate refresh round 3's per-peer block over the received buffer
(Go overwrites on repeated message types; honest runs have exactly one of
each, modelled by `find?`). -/
def refreshRound3Process (h : HashFn) (C : Curve) (myIdx : Nat)
    (peerComms : List (String × Bytes)) :
    List (String × List Msg) → Except Err (List RefreshPeerData)
  | [] => .ok []
  | (id, msgs) :: rest =>
      let decommitMsg := msgs.find? (fun m => m.mtype == "RefreshRound2_Decommit")
      let shareMsg := msgs.find? (fun m => m.mtype == "RefreshRound2_Share")
      match refreshRound3VerifyPeer h C myIdx (lookupD peerComms id [])
          id decommitMsg shareMsg with
      | .error e => .error e
      | .ok d =>
          match refreshRound3Process h C myIdx peerComms rest with
          | .error e => .error e
          | .ok ds => .ok (d :: ds)

/-- refresh `state.round3`: verify every peer's decommit and share, sum
the received shares onto the own zero-hole evaluation at the party's
parsed id, set `x_i_new = x_i_old + Σ_j H_j(i) mod q`, derive and prove
the new `X_i`, and broadcast it.  The save data's public key fields are
not touched. -/
def refreshRound3 (h : HashFn) (C : Curve)
    (prove : Nat → Pt → SchnorrProofW) (s : RefreshState) :
    UpdateRes RefreshSM :=
  match s.temp.polynomial with
  | none => ⟨none, [], some (.plain "missing polynomial")⟩
  | some coeffs =>
      let myIdx := parseDec s.params.partyId
      match refreshRound3Process h C myIdx s.temp.peerCommitments
          s.received with
      | .error e => ⟨none, [], some e⟩
      | .ok peerData =>
          let shareSum := peerData.foldl
            (fun acc d => (acc + d.share) % C.q)
            (polyEval C.q coeffs myIdx)
          let xiNew := (s.oldKeyData.xi + shareSum) % C.q
          let XiPt := C.scalarBaseMult xiNew
          let proof := prove xiNew XiPt
          let saveData' := { s.saveData with
            xi := xiNew
            shareId := myIdx
            xiX := XiPt.1
            xiY := XiPt.2
            peerPaillierPks := peerData.map (fun d =>
              (d.id, { n := (d.paillierN : Int)
                       n2 := (d.paillierN : Int) * (d.paillierN : Int) })) }
          let out : Msg :=
            { sender := s.params.partyId, mtype := "RefreshRound3"
              round := 3, isBroadcast := true, recipients := []
              payload := .proofR3 (natToBytesBE XiPt.1)
                (natToBytesBE XiPt.2) proof.r proof.s }
          let s' := { s with
            round := 3
            received := []
            saveData := saveData'
            temp := { s.temp with
              allVss := (s.params.partyId, coeffs.map C.scalarBaseMult) ::
                peerData.map (fun d => (d.id, ptsOfFlat d.vssFlat)) } }
          ⟨some (.running s'), [out], none⟩

/-! ## Refresh round 4 (refresh `round_4.go`) -/

/-- Party indices for Lagrange aggregation: the id at 0-based list
position `i` gets x-coordinate `i + 1`. -/
def partyIndices (parties : List String) : List (String × Nat) :=
  parties.enum.map (fun ip => (ip.2, ip.1 + 1))

/-- The Lagrange coefficient at zero computed by refresh round 4 for
party `id`: products over the other parties (skipped by id), with the
denominator differences taken mod `q`; `none` when the denominator is
not invertible (where the Go code would dereference a nil inverse). -/
def refreshLagrange (q : Nat) (parties : List String)
    (idx : List (String × Nat)) (id : String) : Option Nat :=
  let xj := lookupD idx id 0
  let others := parties.filter (fun oid => !(oid == id))
  let num := others.foldl (fun acc oid => acc * lookupD idx oid 0 % q) 1
  let den := others.foldl (fun acc oid =>
    let ox : Nat := lookupD idx oid 0
    acc * ((((ox : Int) - (xj : Int)) % (q : Int)).toNat) % q) 1
  match modInverse den q with
  | none => none
  | some dinv => some (num * dinv % q)

/-- Collect the peers' claimed `X_j` from the round-3 broadcasts,
verifying each Schnorr proof; a failing proof surfaces the plain error
`"schnorr proof failed for <id>"`. -/
def refreshRound4Collect (sv : SchnorrVerify) :
    List (String × List Msg) → Except Err (List (String × Pt))
  | [] => .ok []
  | (id, msgs) :: rest =>
      match msgs.head? with
      | none => refreshRound4Collect sv rest
      | some m =>
          match m.payload with
          | .proofR3 xiX xiY pr ps =>
              let Xj : Pt := (bytesToNat xiX, bytesToNat xiY)
              if sv ⟨pr, ps⟩ Xj then
                match refreshRound4Collect sv rest with
                | .error e => .error e
                | .ok tl => .ok ((id, Xj) :: tl)
              else .error (.plain ("schnorr proof failed for " ++ id))
          | _ => .error (.plain "failed to unmarshal round 3 payload")

/-- The Lagrange-weighted sum `Σ_j λ_j·X_j` over the full party list
(`none` only on an empty list, where the Go code's nil accumulator would
make the final comparison panic). -/
def refreshAggSum (C : Curve) (parties : List String)
    (idx : List (String × Nat)) (allX : List (String × Pt)) : Option Pt :=
  parties.foldl (fun acc p =>
    match refreshLagrange C.q parties idx p with
    | none => acc
    | some lam =>
        let term := C.scalarMult (lookupD allX p (0, 0)) lam
        match acc with
        | none => some term
        | some r => some (C.add r term)) none

/-- refresh `state.round4`: verify the peers' Schnorr proofs, aggregate
`Σ_j λ_j·X_j` over the committee, and compare with the old public key:
a mismatch fails with `"global public key changed! refresh failed"`,
otherwise the session finishes with the accumulated save data. -/
def refreshRound4 (C : Curve) (sv : SchnorrVerify) (s : RefreshState) :
    UpdateRes RefreshSM :=
  let idx := partyIndices s.params.parties
  match refreshRound4Collect sv s.received with
  | .error e => ⟨none, [], some e⟩
  | .ok peerX =>
      let allX := (s.params.partyId, (s.saveData.xiX, s.saveData.xiY)) :: peerX
      match refreshAggSum C s.params.parties idx allX with
      | none => ⟨none, [], some (.plain "empty party list")⟩
      | some X =>
          if X.1 ≠ s.oldKeyData.publicKeyX ∨ X.2 ≠ s.oldKeyData.publicKeyY then
            ⟨none, [], some (.plain "global public key changed! refresh failed")⟩
          else ⟨some (.finished s.saveData), [], none⟩

/-! ## KeyGen rounds 3-4 verification blocks (keygen `round_3.go`,
`round_4.go`) -/

/-- Data recovered from one peer in keygen round 3. -/
structure KeygenPeerData where
  id : String
  paillierN : Nat
  vssPoly : List Pt
  share : Nat
  deriving DecidableEq, Repr

/-- Parse `t+1` fixed-width coordinate pairs (32-byte big-endian `x`
then `y`) from the VSS section of a keygen decommit. -/
def keygenParseVss (vssData : Bytes) (t : Nat) : List Pt :=
  (List.range (t + 1)).map (fun k =>
    (bytesToNat ((vssData.drop (k * 64)).take 32),
     bytesToNat ((vssData.drop (k * 64 + 32)).take 32)))

/-- Per-peer verification block of keygen `state.round3` (the lines the
identifiable-abort claims cite): a failed hash commitment surfaces
`tss.NewBlame(decommitMsg.From(), "commitment verification failed")` and
a failed VSS share check surfaces
`tss.NewBlame(shareMsg.From(), "vss share verification failed")` —
structured `Blame` errors carrying the offender's party id.  The
fixed-width payload parse reads 256 bytes of Paillier `N` and `t+1`
64-byte coordinate pairs. -/
def keygenRound3VerifyPeer (h : HashFn) (C : Curve) (t myIdx : Nat)
    (comm : Bytes) (id : String) (decommitMsg shareMsg : Option Msg) :
    Except Err KeygenPeerData :=
  match decommitMsg, shareMsg with
  | some dm, some sm =>
      let payload := dm.payload.bytes?
      if payload.length < 32 then
        .error (.plain ("invalid decommitment length from " ++ id))
      else
        let salt := payload.take 32
        let data := payload.drop 32
        if ¬ commitmentVerify h comm salt data then
          .error (.blame dm.sender "commitment verification failed")
        else if data.length < 256 then
          .error (.plain ("data too short for Paillier N from " ++ id))
        else
          let paillierN := bytesToNat (data.take 256)
          let vssPoly := keygenParseVss (data.drop 256) t
          let share := bytesToNat sm.payload.bytes?
          if vssShareCheckT C myIdx t vssPoly share then
            .ok ⟨id, paillierN, vssPoly, share⟩
          else .error (.blame sm.sender "vss share verification failed")
  | _, _ => .error (.plain ("missing messages from party " ++ id))

/-- The VSS-predicted share point of party `j` summed over all
contributing polynomials, as keygen round 4 computes it. -/
def keygenRound4Expected (C : Curve) (t jIdx : Nat)
    (allVss : List (String × List Pt)) : Option Pt :=
  allVss.foldl (fun acc e =>
    let term := vssCheckRhsRange C jIdx t e.2
    match acc with
    | none => some term
    | some r => some (C.add r term)) none

/-- Per-peer verification block of keygen `state.round4`: a failing
Schnorr proof surfaces
`tss.NewBlame(msg.From(), "schnorr proof verification failed")`, and a
share point inconsistent with the VSS commitments surfaces
`tss.NewBlame(msg.From(), "public key share mismatch")`. -/
def keygenRound4VerifyPeer (C : Curve) (sv : SchnorrVerify) (t : Nat)
    (allVss : List (String × List Pt)) (id : String) (m : Msg) :
    Except Err Pt :=
  match m.payload with
  | .proofR3 xiX xiY pr ps =>
      let Xj : Pt := (bytesToNat xiX, bytesToNat xiY)
      if ¬ sv ⟨pr, ps⟩ Xj then
        .error (.blame m.sender "schnorr proof verification failed")
      else
        match keygenRound4Expected C t (parseDec id) allVss with
        | none => .error (.plain "no vss data")
        | some expected =>
            if Xj = expected then .ok Xj
            else .error (.blame m.sender "public key share mismatch")
  | _ => .error (.plain ("failed to unmarshal round 3 payload from " ++ id))

/-- The save data of a result's successor state, when the successor is a
running state. -/
def nextRunningSave (r : UpdateRes RefreshSM) : Option KeyData :=
  match r.next with
  | some (.running s') => some s'.saveData
  | _ => none

/-- A 32-byte salt of twos for the refresh round-3 fixture. -/
def c2Salt2 : Bytes := List.replicate 32 2

/-- Peer 2's flat VSS coordinates in the refresh fixture
(zero-hole polynomial `H₂(x) = 5x` in the exponent model). -/
def c2PeerVssFlat : List Nat := [0, 0, 5, 0]

/-- Peer 2's round-2 decommit message in the refresh fixture. -/
def c2DecommitMsg : Msg :=
  { sender := "2", mtype := "RefreshRound2_Decommit", round := 2
    isBroadcast := true, recipients := []
    payload := .raw (c2Salt2 ++ refreshCommitJsonFlat 187 c2PeerVssFlat) }

/-- Peer 2's round-2 share message (`H₂(1) = 5`). -/
def c2ShareMsg : Msg :=
  { sender := "2", mtype := "RefreshRound2_Share", round := 2
    isBroadcast := false, recipients := ["1"], payload := .raw [5] }

/-- A two-party session configuration. -/
def c2Params : Params := { partyId := "1", parties := ["1", "2"], threshold := 1 }

/-- The old key data of the refresh fixture (share 7, public key the
exponent-model point (10, 0)). -/
def c2Old : KeyData :=
  { xi := 7, publicKeyX := 10, publicKeyY := 0, ecdsaPubX := 10, ecdsaPubY := 0 }

/-- A refresh session about to run round 3 on peer 2's honest messages. -/
def c2State3 : RefreshState :=
  { params := c2Params, oldKeyData := c2Old, round := 2
    saveData := refreshInitialSaveData c2Params c2Old
    temp := { polynomial := some [0, 3], decommitSalt := some c7Salt
              vssCommitments := [(0, 0), (3, 0)]
              peerCommitments := [("2", List.replicate 32 1)] }
    received := [("2", [c2DecommitMsg, c2ShareMsg])] }

/-- The peer data round 3 recovers in the fixture. -/
def c2PeerData : List RefreshPeerData := [⟨"2", 187, 5, [0, 0, 5, 0]⟩]

/-- A trivial proof producer for concrete runs. -/
def c2Prove : Nat → Pt → SchnorrProofW := fun _ _ => ⟨[], []⟩

/-- The always-accepting Schnorr verifier for honest concrete runs. -/
def svTrue : SchnorrVerify := fun _ _ => true

/-- Peer 2's round-3 broadcast claiming `X₂ = (3, 0)`. -/
def c2Round3Msg : Msg :=
  { sender := "2", mtype := "RefreshRound3", round := 3
    isBroadcast := true, recipients := []
    payload := .proofR3 [3] [] [] [] }

/-- A refresh session in round 4 whose Lagrange aggregation matches the
old public key (2·15 + 16·3 ≡ 10 mod 17). -/
def c2State4good : RefreshState :=
  { params := c2Params, oldKeyData := c2Old, round := 3
    saveData := { refreshInitialSaveData c2Params c2Old with
      xi := 15, xiX := 15, xiY := 0 }
    temp := {}
    received := [("2", [c2Round3Msg])] }

/-- Old key data whose public key does not match the aggregation. -/
def c2OldBad : KeyData :=
  { xi := 7, publicKeyX := 9, publicKeyY := 0, ecdsaPubX := 9, ecdsaPubY := 0 }

/-- The same round-4 session against the mismatching old public key. -/
def c2State4bad : RefreshState :=
  { params := c2Params, oldKeyData := c2OldBad, round := 3
    saveData := { refreshInitialSaveData c2Params c2OldBad with
      xi := 15, xiX := 15, xiY := 0 }
    temp := {}
    received := [("2", [c2Round3Msg])] }

/-! ## Claim C5: identifiable abort (blame vs plain errors) -/

/-- Whether an error is a structured `*tss.Blame` (carries the
responsible party's id as a field). -/
def Err.isBlame : Err → Bool
  | .blame _ _ => true
  | _ => false

/-- The always-rejecting Schnorr verifier for tampered concrete runs. -/
def svFalse : SchnorrVerify := fun _ _ => false

/-- A keygen round-2 decommit from peer 2 whose data is 384 zero bytes
(enough for the fixed-width parse with `t = 1`). -/
def c5KgDecommit : Msg :=
  { sender := "2", mtype := "KeyGenRound2_Decommit", round := 2
    isBroadcast := true, recipients := []
    payload := .raw (c7Salt ++ List.replicate 384 0) }

/-- A keygen round-2 share of value 5 from peer 2. -/
def c5KgShare : Msg :=
  { sender := "2", mtype := "KeyGenRound2_Share", round := 2
    isBroadcast := false, recipients := ["1"], payload := .raw [5] }

/-- A reshare round-2 decommit from peer 2: 32-byte salt followed by an
old-committee CommitData JSON (VSS point (5, 0); the global public key's
x-coordinate 10 as base64 `Cg==`, the zero y-coordinate omitted by
`omitempty` as `big.Int(0).Bytes()` is empty). -/
def c5ReDecommit : Msg :=
  { sender := "2", mtype := "ReshareRound2_Decommit", round := 2
    isBroadcast := true, recipients := []
    payload := .raw (c7Salt ++
      strBytes "\x7b\"vss\":[5,0],\"global_pub_x\":\"Cg==\"\x7d") }

/-- A reshare round-2 share of value 6 from peer 2, not matching the
committed constant point (5, 0). -/
def c5ReShare : Msg :=
  { sender := "2", mtype := "ReshareRound2_Share", round := 2
    isBroadcast := false, recipients := ["1"], payload := .raw [6] }

/-! ## Claim C10: share indexing -/

/-- Reference power-sum evaluation `Σ_k a_k·x^k` (no reduction), used to
relate Horner evaluation and the VSS check loops. -/
def powerSum : List Nat → Nat → Nat
  | [], _ => 0
  | a :: tl, x => a + x * powerSum tl x

/-- The `myX` selection loop of sign `calcLagrangeCoeffs`: scan the party
list pairing each id with its 0-based position, remembering
`position + 1` for every match (so the last occurrence wins, as in the
Go loop). -/
def calcMyX (parties : List String) (selfId : String) : Option Nat :=
  parties.enum.foldl
    (fun acc ip => if ip.2 == selfId then some (ip.1 + 1) else acc) none

/-- sign `state.calcLagrangeCoeffs`: the x-coordinates are the list
positions + 1; the own coordinate is `calcMyX`; numerator and
denominator products skip the own coordinate by value and reduce mod `q`
at every step, the denominator differences computed as Euclidean
remainders of the signed difference. -/
def calcLagrangeCoeffs (q : Nat) (parties : List String) (selfId : String) :
    Except Err Nat :=
  match calcMyX parties selfId with
  | none => .error (.plain "party not found in list")
  | some myX =>
      let allX := (List.range parties.length).map (fun i => i + 1)
      let num := allX.foldl
        (fun acc x => if x = myX then acc else acc * x % q) 1
      let den := allX.foldl
        (fun acc x => if x = myX then acc
          else acc * ((((x : Int) - (myX : Int)) % (q : Int)).toNat) % q) 1
      match modInverse den q with
      | none => .error (.plain "failed to invert denominator")
      | some dinv => .ok (num * dinv % q)

/-! ## Signing round bodies (sign `round_1.go` … `round_5.go`, part_001)

The rounds' randomness (`curve.NewScalar`, `rand.Int`, Paillier nonces)
is passed explicitly.  Each round body is split into a core over the state
fields the Go code reads (`params`, `keyData`, `tempData`,
`receivedMsgs`) and a thin wrapper that rebuilds the next `state` record,
mirroring how the source never reads `msgToSign` before round 4. -/

/-- sign `state.round1`: draw `k_i` and `gamma_i`, compute the Lagrange
weight `w_i = x_i·λ mod N`, Paillier-encrypt `k_i` under the own key,
derive `Γ_i = gamma_i·G` and broadcast `Round1Payload`.  A nil Paillier
key would dereference nil in Go; it is surfaced as an error to keep the
function total (no claim depends on that branch). -/
def signRound1Core (C : Curve) (ki gammai : Nat) (rk : Int)
    (params : Params) (kd : KeyData) (temp : SignTemp) :
    Except Err (SignTemp × List Msg) :=
  match calcLagrangeCoeffs C.q params.parties params.partyId with
  | .error e => .error e
  | .ok lambda =>
      let wi := kd.xi * lambda % C.q
      match kd.paillierPk with
      | none => .error (.plain "missing paillier key")
      | some pk =>
          match pkEncrypt pk (ki : Int) rk with
          | .error e => .error (.plain ("failed to encrypt k_i: " ++ e))
          | .ok encK =>
              let g := C.scalarBaseMult gammai
              let temp' := { temp with
                             ki := some ki
                             gammai := some gammai
                             wi := some wi
                             encK := some encK
                             gammaX := some g.1
                             gammaY := some g.2 }
              let msg : Msg :=
                { sender := params.partyId, mtype := "SignRound1"
                  round := 1, isBroadcast := true, recipients := []
                  payload := .signRound1 (natToBytesBE encK.toNat)
                    (natToBytesBE g.1) (natToBytesBE g.2) }
              .ok (temp', [msg])

/-- Wrapper of sign round 1: the Go body mutates `tempData` in place and
returns the same state (still round 1) with the broadcast. -/
def signRound1 (C : Curve) (ki gammai : Nat) (rk : Int)
    (s : SignState) : UpdateRes SignSM :=
  match signRound1Core C ki gammai rk s.params s.keyData s.temp with
  | .error e => ⟨none, [], some e⟩
  | .ok (temp', msgs) => ⟨some (.running { s with temp := temp' }), msgs, none⟩

/-- Parse the buffered round-1 payloads into
`(id, EncK, GammaX, GammaY)` tuples (`json.Unmarshal` of
`Round1Payload`, `SetBytes` of the byte fields). -/
def parseSignRound1Msgs : Buffer →
    Except Err (List (String × Int × Nat × Nat))
  | [] => .ok []
  | (id, msgs) :: rest =>
      if msgs.isEmpty then parseSignRound1Msgs rest
      else
        match (msgs.headI).payload with
        | .signRound1 ek gx gy =>
            match parseSignRound1Msgs rest with
            | .error e => .error e
            | .ok l =>
                .ok ((id, ((bytesToNat ek : Int), bytesToNat gx,
                  bytesToNat gy)) :: l)
        | _ => .error (.plain "failed to unmarshal round 1 payload")

/-- The MtA loop of sign round 2, walking `params.Parties` in order and
skipping self: for each peer, `C_delta = EncK_j·gamma_i + Enc_j(beta)` and
`C_sigma = EncK_j·w_i + Enc_j(nu)` under the peer's Paillier key, with the
per-peer randomness `(beta, r_beta, nu, r_nu)` drawn from `rnds`. -/
def signMtaLoop (selfId : String) (peerPks : List (String × PaillierPubKey))
    (peerEncK : List (String × Int)) (gammai wi : Nat)
    (rnds : String → Int × Int × Int × Int) :
    List String →
      Except Err (List Msg × List (String × Int) × List (String × Int))
  | [] => .ok ([], [], [])
  | pid :: rest =>
      if pid == selfId then
        signMtaLoop selfId peerPks peerEncK gammai wi rnds rest
      else
        match (peerPks.find? (fun e => e.1 == pid)).map (fun e => e.2) with
        | none => .error (.plain ("missing paillier key for " ++ pid))
        | some pkj =>
            let encKj := lookupD peerEncK pid 0
            let r4 := rnds pid
            match pkEncrypt pkj r4.1 r4.2.1 with
            | .error e => .error (.plain e)
            | .ok encBeta =>
                let cDelta := pkAdd pkj (pkMul pkj encKj gammai) encBeta
                match pkEncrypt pkj r4.2.2.1 r4.2.2.2 with
                | .error e => .error (.plain e)
                | .ok encNu =>
                    let cSigma := pkAdd pkj (pkMul pkj encKj wi) encNu
                    let msg : Msg :=
                      { sender := selfId, mtype := "SignRound2_MtA"
                        round := 2, isBroadcast := false, recipients := [pid]
                        payload := .signRound2 cDelta.toNat cSigma.toNat }
                    match signMtaLoop selfId peerPks peerEncK gammai wi rnds
                        rest with
                    | .error e => .error e
                    | .ok (msgs, betas, nus) =>
                        .ok (msg :: msgs, (pid, r4.1) :: betas,
                          (pid, r4.2.2.1) :: nus)

/-- sign `state.round2`: record the peers' round-1 values and run the MtA
loop. -/
def signRound2Core (params : Params) (kd : KeyData) (temp : SignTemp)
    (received : Buffer) (rnds : String → Int × Int × Int × Int) :
    Except Err (SignTemp × List Msg) :=
  match parseSignRound1Msgs received with
  | .error e => .error e
  | .ok l =>
      let peerEncK := l.map (fun e => (e.1, e.2.1))
      let peerGammaX := l.map (fun e => (e.1, e.2.2.1))
      let peerGammaY := l.map (fun e => (e.1, e.2.2.2))
      match signMtaLoop params.partyId kd.peerPaillierPks peerEncK
          (temp.gammai.getD 0) (temp.wi.getD 0) rnds params.parties with
      | .error e => .error e
      | .ok res =>
          .ok ({ temp with
                 peerEncK := peerEncK
                 peerGammaX := peerGammaX
                 peerGammaY := peerGammaY
                 betas := res.2.1
                 nus := res.2.2 }, res.1)

/-- Wrapper of sign round 2: advance to round 2 and clear the buffer. -/
def signRound2 (rnds : String → Int × Int × Int × Int) (s : SignState) :
    UpdateRes SignSM :=
  match signRound2Core s.params s.keyData s.temp s.received rnds with
  | .error e => ⟨none, [], some e⟩
  | .ok (temp', msgs) =>
      ⟨some (.running { s with temp := temp', round := 2, received := [] }),
        msgs, none⟩

/-- Decrypt the buffered round-2 MtA responses with the own Paillier
secret key, yielding `(id, alpha, mu)` tuples. -/
def signDecryptMtA (sk : PaillierPrivKey) : Buffer →
    Except Err (List (String × Int × Int))
  | [] => .ok []
  | (id, msgs) :: rest =>
      if msgs.isEmpty then signDecryptMtA sk rest
      else
        match (msgs.headI).payload with
        | .signRound2 cDelta cSigma =>
            match skDecrypt sk (cDelta : Int) with
            | .error e =>
                .error (.plain ("failed to decrypt alpha from " ++ id
                  ++ ": " ++ e))
            | .ok alpha =>
                match skDecrypt sk (cSigma : Int) with
                | .error e =>
                    .error (.plain ("failed to decrypt mu from " ++ id
                      ++ ": " ++ e))
                | .ok mu =>
                    match signDecryptMtA sk rest with
                    | .error e => .error e
                    | .ok l => .ok ((id, alpha, mu) :: l)
        | _ => .error (.plain "failed to unmarshal round 2 payload")

/-- sign `state.round3`: decrypt the MtA responses, combine
`delta_i = k_i·gamma_i + Σ alpha − Σ beta mod N` and
`sigma_i = k_i·w_i + Σ mu − Σ nu mod N` (the Go `Mod` is Euclidean, so
its explicit negative-sign fix never fires), and broadcast `delta_i`. -/
def signRound3Core (q : Nat) (params : Params) (kd : KeyData)
    (temp : SignTemp) (received : Buffer) :
    Except Err (SignTemp × List Msg) :=
  match kd.paillierSk with
  | none => .error (.plain "missing paillier secret key")
  | some sk =>
      match signDecryptMtA sk received with
      | .error e => .error e
      | .ok l =>
          let ki := temp.ki.getD 0
          let deltaI := l.foldl
            (fun d e => ((d + e.2.1) % (q : Int)
              - lookupD temp.betas e.1 0) % (q : Int))
            ((ki * temp.gammai.getD 0 % q : Nat) : Int)
          let sigmaI := l.foldl
            (fun d e => ((d + e.2.2) % (q : Int)
              - lookupD temp.nus e.1 0) % (q : Int))
            ((ki * temp.wi.getD 0 % q : Nat) : Int)
          let temp' := { temp with
                         deltaI := some deltaI.toNat
                         sigmaI := some sigmaI.toNat }
          let msg : Msg :=
            { sender := params.partyId, mtype := "SignRound3_Delta"
              round := 3, isBroadcast := true, recipients := []
              payload := .signRound3 deltaI.toNat }
          .ok (temp', [msg])

/-- Wrapper of sign round 3: advance to round 3 and clear the buffer. -/
def signRound3 (C : Curve) (s : SignState) : UpdateRes SignSM :=
  match signRound3Core C.q s.params s.keyData s.temp s.received with
  | .error e => ⟨none, [], some e⟩
  | .ok (temp', msgs) =>
      ⟨some (.running { s with temp := temp', round := 3, received := [] }),
        msgs, none⟩

/-- Sum the buffered round-3 `DeltaI` values onto the own `delta_i`,
reducing mod `N` after each addition. -/
def sumDeltas (N : Nat) : Nat → Buffer → Except Err Nat
  | d, [] => .ok d
  | d, (_, msgs) :: rest =>
      if msgs.isEmpty then sumDeltas N d rest
      else
        match (msgs.headI).payload with
        | .signRound3 dj => sumDeltas N ((d + dj) % N) rest
        | _ => .error (.plain "failed to unmarshal round 3 payload")

/-- The mode-independent derivation of sign round 4 (part_001 lines
20-62): aggregate `delta`, sum `Gamma = Γ_i + Σ Γ_j`, invert `delta`,
compute `R = delta⁻¹·Gamma` and `r = R_x mod N`, failing when `delta` is
not invertible or `r = 0`.  The Go code aliases `r := Rx` before
`r.Mod(r, N)`, so the stored `Rx` is the reduced `r`; the returned triple
is `(r, Rx, Ry)` with that aliasing. -/
def signRound4Core (C : Curve) (temp : SignTemp) (received : Buffer) :
    Except Err (Nat × Nat × Nat) :=
  match sumDeltas C.q (temp.deltaI.getD 0) received with
  | .error e => .error e
  | .ok delta =>
      let Gamma := temp.peerGammaX.foldl
        (fun G e => C.add G (e.2, lookupD temp.peerGammaY e.1 0))
        (temp.gammaX.getD 0, temp.gammaY.getD 0)
      match modInverse delta C.q with
      | none => .error (.plain "delta is not invertible")
      | some deltaInv =>
          let R := C.scalarMult Gamma deltaInv
          let r := R.1 % C.q
          if r = 0 then .error (.plain "calculated r is 0, retry signing")
          else .ok (r, r, R.2)

/-- sign `state.round4` (part_001, the current `round_4.go`: it defines
the `Round4Payload` that `round_5.go` consumes and is what `nextRound`
dispatches to): after the `(r, R_x, R_y)` derivation it computes
`m = SetBytes(msgToSign)` — a nil digest, the presign mode marker, gives
`m = 0` just like an empty one — then `s_i = m·k_i + r·sigma_i mod N`,
broadcasts `SignRound4_Si` and stays in round 4 for the final
aggregation.  There is no presign branch: no code path in the sign
package stops here or constructs a finished state carrying a
`PreSignature`. -/
def signRound4 (C : Curve) (s : SignState) : UpdateRes SignSM :=
  match signRound4Core C s.temp s.received with
  | .error e => ⟨none, [], some e⟩
  | .ok rv =>
      let m := bytesToNat (s.msgToSign.getD [])
      let si := (m * s.temp.ki.getD 0 % C.q
        + rv.1 * s.temp.sigmaI.getD 0 % C.q) % C.q
      let temp' := { s.temp with
                     r := some rv.1
                     si := some si
                     rx := some rv.2.1
                     ry := some rv.2.2 }
      let msg : Msg :=
        { sender := s.params.partyId, mtype := "SignRound4_Si"
          round := 4, isBroadcast := true, recipients := []
          payload := .signRound4 si }
      ⟨some (.running { s with temp := temp', round := 4, received := [] }),
        [msg], none⟩

/-- `sign.NewPreSignStateMachine`: a fresh session with `msgToSign` nil
(the presign mode marker), round 1, empty scratch and buffer, entered
through `round1`. -/
def newPreSignStateMachine (C : Curve) (ki gammai : Nat) (rk : Int)
    (params : Params) (kd : KeyData) : UpdateRes SignSM :=
  signRound1 C ki gammai rk
    { params := params, keyData := kd, msgToSign := none, round := 1
      temp := {}, received := [] }

/-- Rewriting the signing mode of an `Update` result: replace the
`msgToSign` field of a running next state, leaving everything else
(finished states, outbound messages, the error) unchanged. -/
def setMode (mt : Option Bytes) (u : UpdateRes SignSM) : UpdateRes SignSM :=
  { u with next := u.next.map (fun sm =>
      match sm with
      | .running st => .running { st with msgToSign := mt }
      | .finished f => .finished f) }

/-- A signing session about to run round 4, with the derivation inputs
populated. -/
def c1SignState : SignState :=
  { params := sampleParams, keyData := {}, msgToSign := some [9]
    round := 3
    temp := { ki := some 2, sigmaI := some 4, deltaI := some 3
              gammaX := some 5, gammaY := some 0 }
    received := [] }

/-! ## Theorems -/

/-! ## Claim C3: round-number gating -/

/-- C3 (counterexample).  The claim says every protocol's `Update`
silently drops a message whose round number is below the current round.
The signing engine instead fails: in round 2, a round-1 message yields a
non-nil error (an out-of-order error in both directions). -/
theorem claim_C3_counterexample :
    sampleMsgR1.round < sampleSignState.round ∧
    (signStateUpdate dispSign sampleSignState sampleMsgR1).err ≠ none := by
  decide

/-- C3 (amended): only Reshare implements the drop-old / reject-future
rule; Sign (and Presign, which shares `sign.state.Update`), DKG and
Refresh return an out-of-order error for any round number other than the
current one, in both directions.  Quantified over the harness's round
dispatch, which is only reached on round-matching messages. -/
theorem claim_C3_round_gating
    (nrS : SignState → UpdateRes SignSM)
    (nrK : KeygenState → UpdateRes KeygenSM)
    (nrR : RefreshState → UpdateRes RefreshSM)
    (nrE : ReshareState → UpdateRes ReshareSM)
    (ss : SignState) (ks : KeygenState) (rs : RefreshState)
    (es : ReshareState) (m : Msg) :
    (m.round ≠ ss.round →
      signStateUpdate nrS ss m =
        ⟨none, [], some (.plain ("received message for round "
          ++ toString m.round ++ ", expected " ++ toString ss.round))⟩)
  ∧ (m.round ≠ ks.round →
      keygenStateUpdate nrK ks m =
        ⟨none, [], some (.plain ("received message for round "
          ++ toString m.round ++ ", expected " ++ toString ks.round))⟩)
  ∧ (m.round ≠ rs.round →
      refreshStateUpdate nrR rs m =
        ⟨none, [], some (.plain ("received message for round "
          ++ toString m.round ++ ", expected " ++ toString rs.round))⟩)
  ∧ (m.round < es.round →
      reshareStateUpdate nrE es m = ⟨some (.running es), [], none⟩)
  ∧ (m.round > es.round →
      reshareStateUpdate nrE es m =
        ⟨none, [], some (.plain ("received message for round "
          ++ toString m.round ++ ", expected " ++ toString es.round))⟩) := by
  refine ⟨fun h => ?_, fun h => ?_, fun h => ?_, fun h => ?_, fun h => ?_⟩
  · simp [signStateUpdate, h]
  · simp [keygenStateUpdate, h]
  · simp [refreshStateUpdate, h]
  · simp [reshareStateUpdate, h]
  · have h1 : ¬ m.round < es.round := by omega
    simp [reshareStateUpdate, h, h1]

/-- C3 (witness): the amended gating rules evaluated on concrete round-2
sessions fed a stale round-1 message and a premature round-3 message. -/
theorem claim_C3_round_gating_witness :
    (sampleMsgR1.round ≠ sampleSignState.round ∧
      signStateUpdate dispSign sampleSignState sampleMsgR1 =
        ⟨none, [], some (.plain ("received message for round "
          ++ toString sampleMsgR1.round ++ ", expected "
          ++ toString sampleSignState.round))⟩)
  ∧ (sampleMsgR3.round ≠ sampleKeygenState.round ∧
      keygenStateUpdate dispKeygen sampleKeygenState sampleMsgR3 =
        ⟨none, [], some (.plain ("received message for round "
          ++ toString sampleMsgR3.round ++ ", expected "
          ++ toString sampleKeygenState.round))⟩)
  ∧ (sampleMsgR1.round ≠ sampleRefreshState.round ∧
      refreshStateUpdate dispRefresh sampleRefreshState sampleMsgR1 =
        ⟨none, [], some (.plain ("received message for round "
          ++ toString sampleMsgR1.round ++ ", expected "
          ++ toString sampleRefreshState.round))⟩)
  ∧ (sampleMsgR1.round < sampleReshareState.round ∧
      reshareStateUpdate dispReshare sampleReshareState sampleMsgR1 =
        ⟨some (.running sampleReshareState), [], none⟩)
  ∧ (sampleMsgR3.round > sampleReshareState.round ∧
      reshareStateUpdate dispReshare sampleReshareState sampleMsgR3 =
        ⟨none, [], some (.plain ("received message for round "
          ++ toString sampleMsgR3.round ++ ", expected "
          ++ toString sampleReshareState.round))⟩) := by
  refine ⟨⟨by decide, ?_⟩, ⟨by decide, ?_⟩, ⟨by decide, ?_⟩,
    ⟨by decide, ?_⟩, ⟨by decide, ?_⟩⟩
  · exact (claim_C3_round_gating dispSign dispKeygen dispRefresh dispReshare
      sampleSignState sampleKeygenState sampleRefreshState sampleReshareState
      sampleMsgR1).1 (by decide)
  · exact (claim_C3_round_gating dispSign dispKeygen dispRefresh dispReshare
      sampleSignState sampleKeygenState sampleRefreshState sampleReshareState
      sampleMsgR3).2.1 (by decide)
  · exact (claim_C3_round_gating dispSign dispKeygen dispRefresh dispReshare
      sampleSignState sampleKeygenState sampleRefreshState sampleReshareState
      sampleMsgR1).2.2.1 (by decide)
  · exact (claim_C3_round_gating dispSign dispKeygen dispRefresh dispReshare
      sampleSignState sampleKeygenState sampleRefreshState sampleReshareState
      sampleMsgR1).2.2.2.1 (by decide)
  · exact (claim_C3_round_gating dispSign dispKeygen dispRefresh dispReshare
      sampleSignState sampleKeygenState sampleRefreshState sampleReshareState
      sampleMsgR3).2.2.2.2 (by decide)

/-! ## Claim C4: finished-state semantics -/

/-- C4 (counterexample).  The claim says every protocol's finished state
answers further updates with a "protocol already done" signal.  Reshare's
finished state instead returns itself with no error at all. -/
theorem claim_C4_counterexample :
    (reshareFinishedUpdate none sampleMsgR1).err ≠ some .protocolDone ∧
    (reshareFinishedUpdate none sampleMsgR1).err = none := by
  decide

/-- C4 (amended): once finished, DKG, Sign/Presign and Refresh reject
every further update with `tss.ErrProtocolDone`, while Reshare's finished
state is a no-op returning itself with no error; every finished state's
`Result` yields the protocol output it carries. -/
theorem claim_C4_finished_semantics
    (f : SignFinished) (kd rd : KeyData) (ed : Option KeyData) (m : Msg)
    (sig : Signature) (pre : PreSignature) :
    signFinishedUpdate f m = ⟨none, [], some .protocolDone⟩
  ∧ keygenFinishedUpdate kd m = ⟨none, [], some .protocolDone⟩
  ∧ refreshFinishedUpdate rd m = ⟨none, [], some .protocolDone⟩
  ∧ reshareFinishedUpdate ed m = ⟨some (.finished ed), [], none⟩
  ∧ keygenFinishedResult kd = some kd
  ∧ refreshFinishedResult rd = some rd
  ∧ reshareFinishedResult (some rd) = some rd
  ∧ signFinishedResult { signature := some sig } = some (.sig sig)
  ∧ signFinishedResult { preSignature := some pre } = some (.pre pre) := by
  exact ⟨rfl, rfl, rfl, rfl, rfl, rfl, rfl, rfl, rfl⟩

/-! ## Claim C8: duplicate rejection -/

/-- C8: in all four protocols, a second message from the same sender with
the same type in the current round is rejected with a duplicate error
before it is appended: the result carries no successor state (the caller
keeps its unmodified round and buffer), no outbound messages, and the
duplicate error naming the type and sender. -/
theorem claim_C8_duplicate_rejection
    (nrS : SignState → UpdateRes SignSM)
    (nrK : KeygenState → UpdateRes KeygenSM)
    (nrR : RefreshState → UpdateRes RefreshSM)
    (nrE : ReshareState → UpdateRes ReshareSM)
    (ss : SignState) (ks : KeygenState) (rs : RefreshState)
    (es : ReshareState) (m : Msg) :
    (m.round = ss.round → m.sender ≠ ss.params.partyId →
      ss.received.hasType m.sender m.mtype = true →
      signStateUpdate nrS ss m =
        ⟨none, [], some (.plain ("duplicate message type " ++ m.mtype
          ++ " from party " ++ m.sender))⟩)
  ∧ (m.round = ks.round → m.sender ≠ ks.params.partyId →
      ks.received.hasType m.sender m.mtype = true →
      keygenStateUpdate nrK ks m =
        ⟨none, [], some (.plain ("duplicate message type " ++ m.mtype
          ++ " from party " ++ m.sender))⟩)
  ∧ (m.round = rs.round → m.sender ≠ rs.params.partyId →
      rs.received.hasType m.sender m.mtype = true →
      refreshStateUpdate nrR rs m =
        ⟨none, [], some (.plain ("duplicate message type " ++ m.mtype
          ++ " from party " ++ m.sender))⟩)
  ∧ (m.round = es.round → m.sender ≠ es.params.partyId →
      es.received.hasType m.sender m.mtype = true →
      reshareStateUpdate nrE es m =
        ⟨none, [], some (.plain ("duplicate message type " ++ m.mtype
          ++ " from party " ++ m.sender))⟩) := by
  refine ⟨fun h1 h2 h3 => ?_, fun h1 h2 h3 => ?_,
    fun h1 h2 h3 => ?_, fun h1 h2 h3 => ?_⟩
  · simp [signStateUpdate, h1, h2, h3]
  · simp [keygenStateUpdate, h1, h2, h3]
  · simp [refreshStateUpdate, h1, h2, h3]
  · simp [reshareStateUpdate, h1, h2, h3]

/-- C8 (witness): duplicate rejection evaluated on concrete round-2
sessions that already hold party 2's round-2 message. -/
theorem claim_C8_duplicate_rejection_witness :
    (sampleMsgR2.round = sampleSignStateDup.round ∧
      sampleMsgR2.sender ≠ sampleSignStateDup.params.partyId ∧
      sampleSignStateDup.received.hasType sampleMsgR2.sender sampleMsgR2.mtype
        = true ∧
      signStateUpdate dispSign sampleSignStateDup sampleMsgR2 =
        ⟨none, [], some (.plain ("duplicate message type "
          ++ sampleMsgR2.mtype ++ " from party " ++ sampleMsgR2.sender))⟩)
  ∧ (keygenStateUpdate dispKeygen sampleKeygenStateDup sampleMsgR2 =
      ⟨none, [], some (.plain ("duplicate message type "
        ++ sampleMsgR2.mtype ++ " from party " ++ sampleMsgR2.sender))⟩)
  ∧ (refreshStateUpdate dispRefresh sampleRefreshStateDup sampleMsgR2 =
      ⟨none, [], some (.plain ("duplicate message type "
        ++ sampleMsgR2.mtype ++ " from party " ++ sampleMsgR2.sender))⟩)
  ∧ (reshareStateUpdate dispReshare sampleReshareStateDup sampleMsgR2 =
      ⟨none, [], some (.plain ("duplicate message type "
        ++ sampleMsgR2.mtype ++ " from party " ++ sampleMsgR2.sender))⟩) := by
  refine ⟨⟨by decide, by decide, by decide, ?_⟩, ?_, ?_, ?_⟩
  · exact (claim_C8_duplicate_rejection dispSign dispKeygen dispRefresh
      dispReshare sampleSignStateDup sampleKeygenStateDup
      sampleRefreshStateDup sampleReshareStateDup sampleMsgR2).1
      (by decide) (by decide) (by decide)
  · exact (claim_C8_duplicate_rejection dispSign dispKeygen dispRefresh
      dispReshare sampleSignStateDup sampleKeygenStateDup
      sampleRefreshStateDup sampleReshareStateDup sampleMsgR2).2.1
      (by decide) (by decide) (by decide)
  · exact (claim_C8_duplicate_rejection dispSign dispKeygen dispRefresh
      dispReshare sampleSignStateDup sampleKeygenStateDup
      sampleRefreshStateDup sampleReshareStateDup sampleMsgR2).2.2.1
      (by decide) (by decide) (by decide)
  · exact (claim_C8_duplicate_rejection dispSign dispKeygen dispRefresh
      dispReshare sampleSignStateDup sampleKeygenStateDup
      sampleRefreshStateDup sampleReshareStateDup sampleMsgR2).2.2.2
      (by decide) (by decide) (by decide)

/-! ## Claim C9: self-message handling -/

/-- C9 (counterexample).  The claim says an own message is dropped with
the current state returned unchanged.  All four engines return a nil next
state instead (with no error and no messages): the concrete signing
session's update on its own round-2 message carries no successor. -/
theorem claim_C9_counterexample :
    sampleSelfMsgR2.sender = sampleSignState.params.partyId ∧
    sampleSelfMsgR2.round = sampleSignState.round ∧
    (signStateUpdate dispSign sampleSignState sampleSelfMsgR2).next ≠
      some (.running sampleSignState) ∧
    (signStateUpdate dispSign sampleSignState sampleSelfMsgR2).next = none := by
  decide

/-- C9 (amended): on a current-round message whose sender is the local
party, every protocol's `Update` drops the message, returning no error
and no outbound messages but a nil next state rather than the current
state; the caller continues with the instance it already holds.
(Messages from self for other rounds follow the round-gating rules
instead.) -/
theorem claim_C9_self_message
    (nrS : SignState → UpdateRes SignSM)
    (nrK : KeygenState → UpdateRes KeygenSM)
    (nrR : RefreshState → UpdateRes RefreshSM)
    (nrE : ReshareState → UpdateRes ReshareSM)
    (ss : SignState) (ks : KeygenState) (rs : RefreshState)
    (es : ReshareState) (m : Msg) :
    (m.round = ss.round → m.sender = ss.params.partyId →
      signStateUpdate nrS ss m = ⟨none, [], none⟩)
  ∧ (m.round = ks.round → m.sender = ks.params.partyId →
      keygenStateUpdate nrK ks m = ⟨none, [], none⟩)
  ∧ (m.round = rs.round → m.sender = rs.params.partyId →
      refreshStateUpdate nrR rs m = ⟨none, [], none⟩)
  ∧ (m.round = es.round → m.sender = es.params.partyId →
      reshareStateUpdate nrE es m = ⟨none, [], none⟩) := by
  refine ⟨fun h1 h2 => ?_, fun h1 h2 => ?_, fun h1 h2 => ?_,
    fun h1 h2 => ?_⟩
  · simp [signStateUpdate, h1, h2]
  · simp [keygenStateUpdate, h1, h2]
  · simp [refreshStateUpdate, h1, h2]
  · simp [reshareStateUpdate, h1, h2]

/-- C9 (witness): the self-message drop evaluated on concrete round-2
sessions fed the local party's own round-2 message. -/
theorem claim_C9_self_message_witness :
    (sampleSelfMsgR2.round = sampleSignState.round ∧
      sampleSelfMsgR2.sender = sampleSignState.params.partyId ∧
      signStateUpdate dispSign sampleSignState sampleSelfMsgR2 =
        ⟨none, [], none⟩)
  ∧ keygenStateUpdate dispKeygen sampleKeygenState sampleSelfMsgR2 =
      ⟨none, [], none⟩
  ∧ refreshStateUpdate dispRefresh sampleRefreshState sampleSelfMsgR2 =
      ⟨none, [], none⟩
  ∧ reshareStateUpdate dispReshare sampleReshareState sampleSelfMsgR2 =
      ⟨none, [], none⟩ := by
  refine ⟨⟨by decide, by decide, ?_⟩, ?_, ?_, ?_⟩
  · exact (claim_C9_self_message dispSign dispKeygen dispRefresh dispReshare
      sampleSignState sampleKeygenState sampleRefreshState sampleReshareState
      sampleSelfMsgR2).1 (by decide) (by decide)
  · exact (claim_C9_self_message dispSign dispKeygen dispRefresh dispReshare
      sampleSignState sampleKeygenState sampleRefreshState sampleReshareState
      sampleSelfMsgR2).2.1 (by decide) (by decide)
  · exact (claim_C9_self_message dispSign dispKeygen dispRefresh dispReshare
      sampleSignState sampleKeygenState sampleRefreshState sampleReshareState
      sampleSelfMsgR2).2.2.1 (by decide) (by decide)
  · exact (claim_C9_self_message dispSign dispKeygen dispRefresh dispReshare
      sampleSignState sampleKeygenState sampleRefreshState sampleReshareState
      sampleSelfMsgR2).2.2.2 (by decide) (by decide)

/-- Binomial congruence `(1 + N·a)^k ≡ 1 + N·a·k mod N²`: all higher
binomial terms carry a factor `N²`. -/
theorem one_add_mul_pow_modEq (N a : Int) (k : Nat) :
    (1 + N * a) ^ k ≡ 1 + N * (a * k) [ZMOD N * N] := by
  induction k with
  | zero => simp
  | succ k ih =>
      have h1 : (1 + N * a) ^ (k + 1) = (1 + N * a) ^ k * (1 + N * a) := by
        ring
      have h2 : (1 + N * a) ^ k * (1 + N * a) ≡
          (1 + N * (a * k)) * (1 + N * a) [ZMOD N * N] :=
        Int.ModEq.mul_right _ ih
      have h3 : (1 + N * (a * k)) * (1 + N * a) ≡
          1 + N * (a * (k + 1)) [ZMOD N * N] := by
        rw [Int.modEq_iff_dvd]
        exact ⟨-(a * (a * k)), by ring⟩
      calc (1 + N * a) ^ (k + 1) = (1 + N * a) ^ k * (1 + N * a) := h1
        _ ≡ (1 + N * (a * k)) * (1 + N * a) [ZMOD N * N] := h2
        _ ≡ 1 + N * (a * (k + 1)) [ZMOD N * N] := h3

/-- Fermat-Euler through the Carmichael exponent of a semiprime: for
distinct primes `p ≠ q` and `r` coprime to `p·q`,
`r^lcm(p-1, q-1) ≡ 1 mod p·q`. -/
theorem pow_lcm_modEq_one (p q r : Nat) (hp : p.Prime) (hq : q.Prime)
    (hpq : p ≠ q) (hr : Nat.Coprime r (p * q)) :
    r ^ Nat.lcm (p - 1) (q - 1) ≡ 1 [MOD p * q] := by
  have hr1 : 1 ≤ r := by
    rcases Nat.eq_zero_or_pos r with h0 | h1
    · subst h0
      rw [Nat.coprime_zero_left] at hr
      have h2 := hp.one_lt
      have h3 := hq.pos
      nlinarith
    · exact h1
  have hpow1 : 1 ≤ r ^ Nat.lcm (p - 1) (q - 1) := Nat.one_le_pow _ _ hr1
  have hside : ∀ s : Nat, s.Prime → Nat.Coprime r s →
      (s - 1) ∣ Nat.lcm (p - 1) (q - 1) →
      s ∣ r ^ Nat.lcm (p - 1) (q - 1) - 1 := by
    intro s hs hcop hdvd
    have heuler : r ^ (s - 1) ≡ 1 [MOD s] := by
      have h := Nat.ModEq.pow_totient hcop
      rwa [Nat.totient_prime hs] at h
    obtain ⟨t, ht⟩ := hdvd
    have hmod : r ^ Nat.lcm (p - 1) (q - 1) ≡ 1 [MOD s] := by
      rw [ht, pow_mul]
      calc (r ^ (s - 1)) ^ t ≡ 1 ^ t [MOD s] := heuler.pow t
        _ = 1 := one_pow t
    exact (Nat.modEq_iff_dvd' hpow1).mp hmod.symm
  have hpd : p ∣ r ^ Nat.lcm (p - 1) (q - 1) - 1 :=
    hside p hp (Nat.Coprime.coprime_dvd_right ⟨q, rfl⟩ hr)
      (Nat.dvd_lcm_left _ _)
  have hqd : q ∣ r ^ Nat.lcm (p - 1) (q - 1) - 1 :=
    hside q hq (Nat.Coprime.coprime_dvd_right ⟨p, (Nat.mul_comm p q)⟩ hr)
      (Nat.dvd_lcm_right _ _)
  have hcpq : Nat.Coprime p q := (Nat.coprime_primes hp hq).mpr hpq
  have hnd : p * q ∣ r ^ Nat.lcm (p - 1) (q - 1) - 1 :=
    Nat.Coprime.mul_dvd_of_dvd_of_dvd hcpq hpd hqd
  exact ((Nat.modEq_iff_dvd' hpow1).mpr hnd).symm

/-- Lifting lemma: `r^λ ≡ 1 mod N` gives `(r^N)^λ ≡ 1 mod N²`. -/
theorem pow_n_lam_modEq_one (N lam r : Nat)
    (h : r ^ lam ≡ 1 [MOD N]) :
    ((r : Int) ^ N) ^ lam ≡ 1 [ZMOD (N : Int) * N] := by
  obtain ⟨t, ht⟩ : (N : Int) ∣ (r : Int) ^ lam - 1 := by
    have hint : ((r ^ lam : Nat) : Int) ≡ ((1 : Nat) : Int) [ZMOD (N : Int)] := by
      unfold Int.ModEq
      rw [← Int.natCast_mod, ← Int.natCast_mod, h]
    rw [Int.modEq_iff_dvd] at hint
    push_cast at hint
    rw [show ((1 : Int) - (r : Int) ^ lam) = -((r : Int) ^ lam - 1) by ring,
      dvd_neg] at hint
    exact hint
  have hpow : (r : Int) ^ lam = 1 + (N : Int) * t := by omega
  calc ((r : Int) ^ N) ^ lam = ((r : Int) ^ lam) ^ N := by
        rw [← pow_mul, ← pow_mul, Nat.mul_comm]
    _ = (1 + (N : Int) * t) ^ N := by rw [hpow]
    _ ≡ 1 + (N : Int) * (t * N) [ZMOD (N : Int) * N] :=
        one_add_mul_pow_modEq (N : Int) t N
    _ ≡ 1 [ZMOD (N : Int) * N] := by
        rw [Int.modEq_iff_dvd]
        exact ⟨-t, by ring⟩

/-- Master decryption lemma: under a Paillier key built from distinct
primes with `λ·μ ≡ 1 mod n`, any ciphertext in range that is congruent
mod `n²` to `(1 + n·x)·r^n` with `r` coprime to `n` decrypts to
`x mod n`. -/
theorem skDecrypt_of_modEq (p q : Nat) (hp : p.Prime) (hq : q.Prime)
    (hpq : p ≠ q) (mu : Int)
    (hmu : ((Nat.lcm (p - 1) (q - 1) : Nat) : Int) * mu ≡ 1
      [ZMOD ((p * q : Nat) : Int)])
    (x r : Nat) (hr : Nat.Coprime r (p * q)) (c : Int)
    (hc0 : 0 ≤ c) (hcn : c < ((p * q : Nat) : Int) * ((p * q : Nat) : Int))
    (hc : c ≡ (1 + ((p * q : Nat) : Int) * (x : Int)) * (r : Int) ^ (p * q)
      [ZMOD ((p * q : Nat) : Int) * ((p * q : Nat) : Int)]) :
    skDecrypt (paillierKeyFrom p q mu) c = .ok ((x % (p * q) : Nat) : Int) := by
  have hN2 : 2 ≤ p * q := by
    have h2 := hp.two_le
    have h3 := hq.two_le
    nlinarith
  set NZ : Int := ((p * q : Nat) : Int) with hNZ
  have hNZ2 : 2 ≤ NZ := by
    rw [hNZ]
    exact_mod_cast hN2
  have hNZ0 : NZ ≠ 0 := by omega
  set lam : Nat := Nat.lcm (p - 1) (q - 1) with hlamdef
  have hlamkey : (paillierKeyFrom p q mu).lambda = (lam : Int) := rfl
  have hn : (paillierKeyFrom p q mu).pub.n = NZ := rfl
  have hn2 : (paillierKeyFrom p q mu).pub.n2 = NZ * NZ := rfl
  -- the round-trip exponent congruence
  have hclam : c ^ lam ≡ 1 + NZ * ((x : Int) * lam) [ZMOD NZ * NZ] := by
    have h1 : c ^ lam ≡
        ((1 + NZ * (x : Int)) * (r : Int) ^ (p * q)) ^ lam [ZMOD NZ * NZ] :=
      hc.pow lam
    have h2 : ((1 + NZ * (x : Int)) * (r : Int) ^ (p * q)) ^ lam
        = (1 + NZ * (x : Int)) ^ lam * ((r : Int) ^ (p * q)) ^ lam := by
      rw [mul_pow]
    have h3 : (1 + NZ * (x : Int)) ^ lam ≡ 1 + NZ * ((x : Int) * lam)
        [ZMOD NZ * NZ] := one_add_mul_pow_modEq NZ (x : Int) lam
    have h4 : ((r : Int) ^ (p * q)) ^ lam ≡ 1 [ZMOD NZ * NZ] :=
      pow_n_lam_modEq_one (p * q) lam r
        (pow_lcm_modEq_one p q r hp hq hpq hr)
    calc c ^ lam ≡ ((1 + NZ * (x : Int)) * (r : Int) ^ (p * q)) ^ lam
          [ZMOD NZ * NZ] := h1
      _ = (1 + NZ * (x : Int)) ^ lam * ((r : Int) ^ (p * q)) ^ lam := h2
      _ ≡ (1 + NZ * ((x : Int) * lam)) * 1 [ZMOD NZ * NZ] := h3.mul h4
      _ = 1 + NZ * ((x : Int) * lam) := by ring
  set y : Int := (x : Int) * lam with hydef
  have hy0 : 0 ≤ y := by positivity
  -- the reduced value of c^λ mod n²
  have hured : (1 + NZ * y) % (NZ * NZ) = 1 + NZ * (y % NZ) := by
    have hsplit : 1 + NZ * y = 1 + NZ * (y % NZ) + NZ * NZ * (y / NZ) := by
      have := Int.ediv_add_emod y NZ
      nlinarith [this]
    have hm1 : 0 ≤ y % NZ := Int.emod_nonneg y hNZ0
    have hm2 : y % NZ < NZ := Int.emod_lt_of_pos y (by omega)
    rw [hsplit, Int.add_mul_emod_self_left]
    exact Int.emod_eq_of_lt (by nlinarith) (by nlinarith)
  have hu : c ^ lam % (NZ * NZ) = 1 + NZ * (y % NZ) := by
    have := hclam
    unfold Int.ModEq at this
    rw [this, hured]
  -- the L function extracts y mod n
  have hl : (c ^ lam % (NZ * NZ) - 1) / NZ = y % NZ := by
    rw [hu]
    have : 1 + NZ * (y % NZ) - 1 = NZ * (y % NZ) := by ring
    rw [this, Int.mul_ediv_cancel_left _ hNZ0]
  -- multiply by mu and reduce
  have hfinal : (y % NZ) * mu % NZ = (x : Int) % NZ := by
    have h1 : y % NZ ≡ y [ZMOD NZ] := Int.emod_emod_of_dvd y dvd_rfl
    have h2 : (y % NZ) * mu ≡ y * mu [ZMOD NZ] := h1.mul_right mu
    have h3 : y * mu = (x : Int) * ((lam : Int) * mu) := by
      rw [hydef]; ring
    have h4 : (x : Int) * ((lam : Int) * mu) ≡ (x : Int) * 1 [ZMOD NZ] :=
      hmu.mul_left (x : Int)
    have h5 : (y % NZ) * mu ≡ (x : Int) [ZMOD NZ] := by
      calc (y % NZ) * mu ≡ y * mu [ZMOD NZ] := h2
        _ = (x : Int) * ((lam : Int) * mu) := h3
        _ ≡ (x : Int) * 1 [ZMOD NZ] := h4
        _ = (x : Int) := by ring
    unfold Int.ModEq at h5
    exact h5
  -- assemble the decryption run
  have hguard : ¬(c < 0 ∨ NZ * NZ ≤ c) := by
    push_neg
    exact ⟨hc0, hcn⟩
  have hcast : ((x % (p * q) : Nat) : Int) = (x : Int) % NZ := by
    rw [hNZ]
    push_cast
    ring
  simp only [skDecrypt, hlamkey, hn, hn2, Int.toNat_natCast,
    show (paillierKeyFrom p q mu).mu = mu from rfl]
  rw [if_neg hguard, hl, hfinal, hcast]

/-- Ciphertext congruence: the encryption of `m` under nonce `r` is
congruent mod `n²` to `(1 + n·m)·r^n`. -/
theorem encVal_modEq (p q : Nat) (mu : Int) (m r : Nat) :
    encVal (paillierKeyFrom p q mu).pub (m : Int) (r : Int) ≡
      (1 + ((p * q : Nat) : Int) * (m : Int)) * (r : Int) ^ (p * q)
      [ZMOD ((p * q : Nat) : Int) * ((p * q : Nat) : Int)] := by
  set NZ : Int := ((p * q : Nat) : Int) with hNZ
  have hn : (paillierKeyFrom p q mu).pub.n = NZ := rfl
  have hn2 : (paillierKeyFrom p q mu).pub.n2 = NZ * NZ := rfl
  have htn : (paillierKeyFrom p q mu).pub.n.toNat = p * q := by
    rw [hn, hNZ]
    exact Int.toNat_natCast _
  unfold encVal
  rw [hn2, htn, hn]
  have h1 : (1 + NZ * (m : Int)) * ((r : Int) ^ (p * q) % (NZ * NZ)) %
      (NZ * NZ) ≡ (1 + NZ * (m : Int)) * ((r : Int) ^ (p * q) % (NZ * NZ))
      [ZMOD NZ * NZ] := Int.emod_emod_of_dvd _ dvd_rfl
  have h2 : (r : Int) ^ (p * q) % (NZ * NZ) ≡ (r : Int) ^ (p * q)
      [ZMOD NZ * NZ] := Int.emod_emod_of_dvd _ dvd_rfl
  calc (1 + NZ * (m : Int)) * ((r : Int) ^ (p * q) % (NZ * NZ)) % (NZ * NZ)
      ≡ (1 + NZ * (m : Int)) * ((r : Int) ^ (p * q) % (NZ * NZ))
        [ZMOD NZ * NZ] := h1
    _ ≡ (1 + NZ * (m : Int)) * ((r : Int) ^ (p * q)) [ZMOD NZ * NZ] :=
        h2.mul_left _

/-- Range of any value reduced mod `n²` for `n ≥ 2`. -/
theorem emod_nsq_range (NZ v : Int) (h : 2 ≤ NZ) :
    0 ≤ v % (NZ * NZ) ∧ v % (NZ * NZ) < NZ * NZ := by
  have hpos : 0 < NZ * NZ := by nlinarith
  exact ⟨Int.emod_nonneg v (by omega), Int.emod_lt_of_pos v hpos⟩

/-- C6: for a Paillier key generated from distinct primes (modulus
`N = p·q`, `λ = lcm(p-1, q-1)`, `μ = λ⁻¹ mod N` as produced by
`GenerateKey`), with encryption nonces coprime to `N` (the sampling
guarantee the source relies on): every message `m ∈ [0, N)` satisfies
`Decrypt(Encrypt(m)) = m`; for `a, b ∈ [0, N)`,
`Decrypt(Add(Enc(a), Enc(b))) = a + b mod N`; and for any scalar `k`,
`Decrypt(ScalarMul(Enc(a), k)) = a·k mod N`. -/
theorem claim_C6_paillier_homomorphism
    (p q : Nat) (hp : p.Prime) (hq : q.Prime) (hpq : p ≠ q) (mu : Int)
    (hmu : ((Nat.lcm (p - 1) (q - 1) : Nat) : Int) * mu ≡ 1
      [ZMOD ((p * q : Nat) : Int)])
    (m a b r ra rb k : Nat)
    (hm : m < p * q) (ha : a < p * q) (hb : b < p * q)
    (hr : Nat.Coprime r (p * q)) (hra : Nat.Coprime ra (p * q))
    (hrb : Nat.Coprime rb (p * q)) :
    pkEncrypt (paillierKeyFrom p q mu).pub (m : Int) (r : Int) =
      .ok (encVal (paillierKeyFrom p q mu).pub (m : Int) (r : Int))
  ∧ skDecrypt (paillierKeyFrom p q mu)
      (encVal (paillierKeyFrom p q mu).pub (m : Int) (r : Int)) = .ok (m : Int)
  ∧ skDecrypt (paillierKeyFrom p q mu)
      (pkAdd (paillierKeyFrom p q mu).pub
        (encVal (paillierKeyFrom p q mu).pub (a : Int) (ra : Int))
        (encVal (paillierKeyFrom p q mu).pub (b : Int) (rb : Int))) =
      .ok (((a + b) % (p * q) : Nat) : Int)
  ∧ skDecrypt (paillierKeyFrom p q mu)
      (pkMul (paillierKeyFrom p q mu).pub
        (encVal (paillierKeyFrom p q mu).pub (a : Int) (ra : Int)) k) =
      .ok (((a * k) % (p * q) : Nat) : Int) := by
  have hN2 : 2 ≤ p * q := by
    have h2 := hp.two_le
    have h3 := hq.two_le
    nlinarith
  set NZ : Int := ((p * q : Nat) : Int) with hNZ
  have hNZ2 : 2 ≤ NZ := by rw [hNZ]; exact_mod_cast hN2
  have hn : (paillierKeyFrom p q mu).pub.n = NZ := rfl
  have hn2 : (paillierKeyFrom p q mu).pub.n2 = NZ * NZ := rfl
  refine ⟨?_, ?_, ?_, ?_⟩
  · -- Encrypt succeeds on in-range messages
    unfold pkEncrypt
    rw [if_neg]
    rw [hn]
    push_neg
    constructor
    · positivity
    · rw [hNZ]; exact_mod_cast hm
  · -- Dec(Enc(m)) = m
    have hrange := emod_nsq_range NZ
      ((1 + NZ * (m : Int)) * ((r : Int) ^ (p * q) % (NZ * NZ))) hNZ2
    have h := skDecrypt_of_modEq p q hp hq hpq mu hmu m r hr
      (encVal (paillierKeyFrom p q mu).pub (m : Int) (r : Int))
      hrange.1 hrange.2 (encVal_modEq p q mu m r)
    rwa [Nat.mod_eq_of_lt hm] at h
  · -- Dec(Add(Enc a, Enc b)) = (a + b) mod N
    have hcab : pkAdd (paillierKeyFrom p q mu).pub
        (encVal (paillierKeyFrom p q mu).pub (a : Int) (ra : Int))
        (encVal (paillierKeyFrom p q mu).pub (b : Int) (rb : Int)) ≡
        (1 + NZ * ((a + b : Nat) : Int)) * ((ra * rb : Nat) : Int) ^ (p * q)
        [ZMOD NZ * NZ] := by
      unfold pkAdd
      rw [hn2]
      have h0 : encVal (paillierKeyFrom p q mu).pub (a : Int) (ra : Int) *
          encVal (paillierKeyFrom p q mu).pub (b : Int) (rb : Int) ≡
          ((1 + NZ * (a : Int)) * (ra : Int) ^ (p * q)) *
          ((1 + NZ * (b : Int)) * (rb : Int) ^ (p * q)) [ZMOD NZ * NZ] :=
        (encVal_modEq p q mu a ra).mul (encVal_modEq p q mu b rb)
      have h1 : ((1 + NZ * (a : Int)) * (ra : Int) ^ (p * q)) *
          ((1 + NZ * (b : Int)) * (rb : Int) ^ (p * q)) =
          ((1 + NZ * (a : Int)) * (1 + NZ * (b : Int))) *
          ((ra : Int) * rb) ^ (p * q) := by
        rw [mul_pow]; ring
      have h2 : ((1 + NZ * (a : Int)) * (1 + NZ * (b : Int))) *
          ((ra : Int) * rb) ^ (p * q) ≡
          (1 + NZ * ((a : Int) + b)) * ((ra : Int) * rb) ^ (p * q)
          [ZMOD NZ * NZ] := by
        refine Int.ModEq.mul_right _ ?_
        rw [Int.modEq_iff_dvd]
        exact ⟨-((a : Int) * b), by ring⟩
      calc encVal (paillierKeyFrom p q mu).pub (a : Int) (ra : Int) *
            encVal (paillierKeyFrom p q mu).pub (b : Int) (rb : Int) %
            (NZ * NZ)
          ≡ encVal (paillierKeyFrom p q mu).pub (a : Int) (ra : Int) *
            encVal (paillierKeyFrom p q mu).pub (b : Int) (rb : Int)
            [ZMOD NZ * NZ] := Int.emod_emod_of_dvd _ dvd_rfl
        _ ≡ ((1 + NZ * (a : Int)) * (ra : Int) ^ (p * q)) *
            ((1 + NZ * (b : Int)) * (rb : Int) ^ (p * q))
            [ZMOD NZ * NZ] := h0
        _ = ((1 + NZ * (a : Int)) * (1 + NZ * (b : Int))) *
            ((ra : Int) * rb) ^ (p * q) := h1
        _ ≡ (1 + NZ * ((a : Int) + b)) * ((ra : Int) * rb) ^ (p * q)
            [ZMOD NZ * NZ] := h2
        _ = (1 + NZ * ((a + b : Nat) : Int)) *
            ((ra * rb : Nat) : Int) ^ (p * q) := by push_cast; ring
    have hrange : 0 ≤ pkAdd (paillierKeyFrom p q mu).pub
          (encVal (paillierKeyFrom p q mu).pub (a : Int) (ra : Int))
          (encVal (paillierKeyFrom p q mu).pub (b : Int) (rb : Int)) ∧
        pkAdd (paillierKeyFrom p q mu).pub
          (encVal (paillierKeyFrom p q mu).pub (a : Int) (ra : Int))
          (encVal (paillierKeyFrom p q mu).pub (b : Int) (rb : Int)) <
          NZ * NZ := by
      unfold pkAdd
      rw [hn2]
      exact emod_nsq_range NZ _ hNZ2
    exact skDecrypt_of_modEq p q hp hq hpq mu hmu (a + b) (ra * rb)
      (Nat.Coprime.mul hra hrb) _ hrange.1 hrange.2 hcab
  · -- Dec(ScalarMul(Enc a, k)) = a·k mod N
    have hck : pkMul (paillierKeyFrom p q mu).pub
        (encVal (paillierKeyFrom p q mu).pub (a : Int) (ra : Int)) k ≡
        (1 + NZ * ((a * k : Nat) : Int)) * ((ra ^ k : Nat) : Int) ^ (p * q)
        [ZMOD NZ * NZ] := by
      unfold pkMul
      rw [hn2]
      have h0 : encVal (paillierKeyFrom p q mu).pub (a : Int) (ra : Int) ^ k ≡
          ((1 + NZ * (a : Int)) * (ra : Int) ^ (p * q)) ^ k
          [ZMOD NZ * NZ] := (encVal_modEq p q mu a ra).pow k
      have h1 : ((1 + NZ * (a : Int)) * (ra : Int) ^ (p * q)) ^ k =
          (1 + NZ * (a : Int)) ^ k * ((ra : Int) ^ k) ^ (p * q) := by
        rw [mul_pow, ← pow_mul, ← pow_mul, Nat.mul_comm]
      have h2 : (1 + NZ * (a : Int)) ^ k * ((ra : Int) ^ k) ^ (p * q) ≡
          (1 + NZ * ((a : Int) * k)) * ((ra : Int) ^ k) ^ (p * q)
          [ZMOD NZ * NZ] :=
        Int.ModEq.mul_right _ (one_add_mul_pow_modEq NZ (a : Int) k)
      calc encVal (paillierKeyFrom p q mu).pub (a : Int) (ra : Int) ^ k %
            (NZ * NZ)
          ≡ encVal (paillierKeyFrom p q mu).pub (a : Int) (ra : Int) ^ k
            [ZMOD NZ * NZ] := Int.emod_emod_of_dvd _ dvd_rfl
        _ ≡ ((1 + NZ * (a : Int)) * (ra : Int) ^ (p * q)) ^ k
            [ZMOD NZ * NZ] := h0
        _ = (1 + NZ * (a : Int)) ^ k * ((ra : Int) ^ k) ^ (p * q) := h1
        _ ≡ (1 + NZ * ((a : Int) * k)) * ((ra : Int) ^ k) ^ (p * q)
            [ZMOD NZ * NZ] := h2
        _ = (1 + NZ * ((a * k : Nat) : Int)) *
            ((ra ^ k : Nat) : Int) ^ (p * q) := by push_cast; ring
    have hrange : 0 ≤ pkMul (paillierKeyFrom p q mu).pub
          (encVal (paillierKeyFrom p q mu).pub (a : Int) (ra : Int)) k ∧
        pkMul (paillierKeyFrom p q mu).pub
          (encVal (paillierKeyFrom p q mu).pub (a : Int) (ra : Int)) k <
          NZ * NZ := by
      unfold pkMul
      rw [hn2]
      exact emod_nsq_range NZ _ hNZ2
    exact skDecrypt_of_modEq p q hp hq hpq mu hmu (a * k) (ra ^ k)
      (Nat.Coprime.pow_left k hra) _ hrange.1 hrange.2 hck

/-- C6 (witness): the three homomorphic identities evaluated on the
concrete toy key `p = 3`, `q = 5` (`N = 15`, `λ = 4`, `μ = 4`), message
`m = 7` with nonce `r = 2`, summands `a = 4`, `b = 9` with nonces
`ra = 7`, `rb = 11`, and scalar `k = 3`. -/
theorem claim_C6_paillier_homomorphism_witness :
    (Nat.Prime 3 ∧ Nat.Prime 5 ∧
      ((Nat.lcm (3 - 1) (5 - 1) : Nat) : Int) * 4 ≡ 1
        [ZMOD ((3 * 5 : Nat) : Int)] ∧
      Nat.Coprime 2 (3 * 5) ∧ Nat.Coprime 7 (3 * 5) ∧
      Nat.Coprime 11 (3 * 5))
  ∧ skDecrypt (paillierKeyFrom 3 5 4)
      (encVal (paillierKeyFrom 3 5 4).pub (7 : Int) (2 : Int)) =
      .ok ((7 : Nat) : Int)
  ∧ skDecrypt (paillierKeyFrom 3 5 4)
      (pkAdd (paillierKeyFrom 3 5 4).pub
        (encVal (paillierKeyFrom 3 5 4).pub ((4 : Nat) : Int) ((7 : Nat) : Int))
        (encVal (paillierKeyFrom 3 5 4).pub ((9 : Nat) : Int)
          ((11 : Nat) : Int))) =
      .ok (((4 + 9) % (3 * 5) : Nat) : Int)
  ∧ skDecrypt (paillierKeyFrom 3 5 4)
      (pkMul (paillierKeyFrom 3 5 4).pub
        (encVal (paillierKeyFrom 3 5 4).pub ((4 : Nat) : Int)
          ((7 : Nat) : Int)) 3) =
      .ok (((4 * 3) % (3 * 5) : Nat) : Int) := by
  have h := claim_C6_paillier_homomorphism 3 5 (by norm_num) (by norm_num)
    (by norm_num) 4 (by decide) 7 4 9 2 7 11 3 (by norm_num) (by norm_num)
    (by norm_num) (by decide) (by decide) (by decide)
  exact ⟨⟨by norm_num, by norm_num, by decide, by decide, by decide,
    by decide⟩, h.2.1, h.2.2.1, h.2.2.2⟩

/-- C7 (counterexample).  The claim says both DKG and Refresh round 1
commit to the fixed-width CommitData serialisation and decommit
`salt ‖ that same data`.  At the concrete fixtures: Refresh's round-2
decommit payload carries the JSON serialisation of CommitData, which
differs from the fixed-width serialisation (it opens with `0x7b`, a
brace, where the fixed-width form opens with a zero pad byte); and DKG
round 1 hashes `salt ‖ N.Bytes()` — the unpadded modulus bytes with no
VSS points — not `salt ‖ CommitData`. -/
theorem claim_C7_counterexample :
    ((refreshRound2 (expCurve 17) c7RefreshState).out.headI.payload.bytes? =
      c7Salt ++ refreshCommitJsonBytes 187 c7Vss)
  ∧ refreshCommitJsonBytes 187 c7Vss ≠ fixedWidthCommitData 187 c7Vss
  ∧ ((keygenRound1 c7Hash c7Salt c7PaillierSk c7KeygenState).out.headI.payload.bytes?
      = c7Hash (c7Salt ++ natToBytesBE 187))
  ∧ c7Salt ++ natToBytesBE 187 ≠ c7Salt ++ fixedWidthCommitData 187 c7Vss := by
  refine ⟨by decide, by decide, by decide, ?_⟩
  intro h
  have := List.append_inj_right h rfl
  revert this
  decide

/-- C7 (amended): DKG round 1 commits to the hash of
`salt ‖ N.Bytes()` — the unpadded Paillier modulus only, with no VSS
points — while DKG round 2's decommit payload is the 32-byte salt
followed by the fixed-width CommitData (N zero-padded big-endian to 256
bytes, then the VSS coordinates each zero-padded big-endian to 32 bytes
in coefficient order); Refresh serialises CommitData as JSON
(`{"PaillierN": base64, "VSS": [decimal …]}`) both inside the round-1
commitment hash and in the round-2 decommit payload
`salt ‖ JSON CommitData`. -/
theorem claim_C7_commit_serialisation
    (h : HashFn) (C : Curve) (salt : Bytes) (sk : PaillierPrivKey)
    (rands : List Nat) (ks : KeygenState) (rs : RefreshState)
    (coeffs : List Nat)
    (hks1 : ks.temp.decommitSalt = some salt)
    (hks2 : ks.saveData.paillierPk = some sk.pub)
    (hks3 : ks.temp.polynomial = some coeffs)
    (hrs1 : rs.temp.decommitSalt = some salt)
    (hrs2 : rs.saveData.paillierPk = some sk.pub)
    (hrs3 : rs.temp.polynomial = some coeffs) :
    (keygenRound1 h salt sk ks).out =
      [{ sender := ks.params.partyId, mtype := "KeyGenRound1", round := 1
         isBroadcast := true, recipients := []
         payload := .raw (h (salt ++ natToBytesBE sk.pub.n.toNat)) }]
  ∧ (keygenRound2 C ks).out =
      { sender := ks.params.partyId, mtype := "KeyGenRound2_Decommit"
        round := 2, isBroadcast := true, recipients := []
        payload := .raw (salt ++
          fixedWidthCommitData sk.pub.n.toNat ks.temp.vssCommitments) } ::
      keygenRound2Shares C ks.params.partyId ks.params.parties coeffs
  ∧ (refreshRound1 h C salt sk rands rs).out =
      [{ sender := rs.params.partyId, mtype := "RefreshRound1", round := 1
         isBroadcast := true, recipients := []
         payload := .raw (h (salt ++ refreshCommitJsonBytes sk.pub.n.toNat
           ((polyNew (some 0) rands rs.params.threshold).map
             C.scalarBaseMult))) }]
  ∧ (refreshRound2 C rs).out =
      { sender := rs.params.partyId, mtype := "RefreshRound2_Decommit"
        round := 2, isBroadcast := true, recipients := []
        payload := .raw (salt ++
          refreshCommitJsonBytes sk.pub.n.toNat rs.temp.vssCommitments) } ::
      refreshRound2Shares C rs.params.partyId rs.params.parties coeffs := by
  refine ⟨?_, ?_, ?_, ?_⟩
  · simp [keygenRound1, commitmentNew]
  · simp [keygenRound2, hks1, hks2, hks3]
  · simp [refreshRound1, commitmentNew]
  · simp [refreshRound2, hrs1, hrs2, hrs3]

/-- C7 (witness): the amended serialisation facts evaluated on the
concrete fixtures (modulus 187, two VSS points, zero salt). -/
theorem claim_C7_commit_serialisation_witness :
    c7KeygenState.temp.decommitSalt = some c7Salt
  ∧ c7KeygenState.saveData.paillierPk = some c7PaillierSk.pub
  ∧ (keygenRound2 (expCurve 17) c7KeygenState).out =
      { sender := "1", mtype := "KeyGenRound2_Decommit"
        round := 2, isBroadcast := true, recipients := []
        payload := .raw (c7Salt ++ fixedWidthCommitData 187 c7Vss) } ::
      keygenRound2Shares (expCurve 17) "1" ["1", "2", "3"] [0, 3]
  ∧ (refreshRound2 (expCurve 17) c7RefreshState).out =
      { sender := "1", mtype := "RefreshRound2_Decommit"
        round := 2, isBroadcast := true, recipients := []
        payload := .raw (c7Salt ++ refreshCommitJsonBytes 187 c7Vss) } ::
      refreshRound2Shares (expCurve 17) "1" ["1", "2", "3"] [0, 3] := by
  have h := claim_C7_commit_serialisation c7Hash (expCurve 17) c7Salt
    c7PaillierSk [] c7KeygenState c7RefreshState [0, 3]
    (by decide) (by decide) (by decide) (by decide) (by decide) (by decide)
  exact ⟨by decide, by decide, h.2.1, h.2.2.2⟩

/-- Folding `(acc + x) mod q` over a list is congruent to the plain sum. -/
theorem foldl_add_mod_modEq (q : Nat) (l : List Nat) (init : Nat) :
    l.foldl (fun acc x => (acc + x) % q) init ≡ init + l.sum [MOD q] := by
  induction l generalizing init with
  | nil => simp [Nat.ModEq.refl]
  | cons x xs ih =>
      have h1 := ih ((init + x) % q)
      have h2 : (init + x) % q + xs.sum ≡ init + x + xs.sum [MOD q] :=
        Nat.ModEq.add_right xs.sum (Nat.mod_modEq (init + x) q)
      calc (x :: xs).foldl (fun acc y => (acc + y) % q) init
          = xs.foldl (fun acc y => (acc + y) % q) ((init + x) % q) := rfl
        _ ≡ (init + x) % q + xs.sum [MOD q] := h1
        _ ≡ init + x + xs.sum [MOD q] := h2
        _ = init + (x :: xs).sum := by simp [List.sum_cons]; ring

/-! ## Claim C2: refresh share arithmetic and public-key preservation -/

/-- C2: Refresh's zero-hole polynomial has constant term 0; round 3 sets
the new share to `x_i_old + (H_i(i) + Σ_j H_j(i)) mod q` (own evaluation
at the parsed id plus every received share) while leaving the save
data's public key untouched — and the initial save data copies the old
public key verbatim; round 4 fails with a public-key-drift error (no
finished state) when the Lagrange-aggregated `Σ λ_j·X_j` differs from the
old public key, and otherwise finishes with save data still carrying the
old public key. -/
theorem claim_C2_refresh_invariants
    (h : HashFn) (C : Curve) (prove : Nat → Pt → SchnorrProofW)
    (sv : SchnorrVerify) (rands : List Nat) (t : Nat)
    (params : Params) (old : KeyData)
    (s s4 : RefreshState) (coeffs : List Nat)
    (peerData : List RefreshPeerData) (peerX : List (String × Pt)) (X : Pt) :
    (polyNew (some 0) rands t).head? = some 0
  ∧ (refreshInitialSaveData params old).publicKeyX = old.publicKeyX
  ∧ (refreshInitialSaveData params old).publicKeyY = old.publicKeyY
  ∧ (s.temp.polynomial = some coeffs →
      refreshRound3Process h C (parseDec s.params.partyId)
        s.temp.peerCommitments s.received = .ok peerData →
      (refreshRound3 h C prove s).err = none
        ∧ ((nextRunningSave (refreshRound3 h C prove s)).map KeyData.xi) =
            some ((s.oldKeyData.xi +
              (polyEval C.q coeffs (parseDec s.params.partyId)
                + (peerData.map RefreshPeerData.share).sum)) % C.q)
        ∧ ((nextRunningSave (refreshRound3 h C prove s)).map
            KeyData.publicKeyX) = some s.saveData.publicKeyX
        ∧ ((nextRunningSave (refreshRound3 h C prove s)).map
            KeyData.publicKeyY) = some s.saveData.publicKeyY)
  ∧ (refreshRound4Collect sv s4.received = .ok peerX →
      refreshAggSum C s4.params.parties (partyIndices s4.params.parties)
        ((s4.params.partyId, (s4.saveData.xiX, s4.saveData.xiY)) :: peerX)
        = some X →
      (¬ (X.1 = s4.oldKeyData.publicKeyX ∧ X.2 = s4.oldKeyData.publicKeyY) →
        refreshRound4 C sv s4 =
          ⟨none, [], some (.plain "global public key changed! refresh failed")⟩)
      ∧ (X.1 = s4.oldKeyData.publicKeyX → X.2 = s4.oldKeyData.publicKeyY →
        refreshRound4 C sv s4 = ⟨some (.finished s4.saveData), [], none⟩
          ∧ refreshFinishedResult s4.saveData = some s4.saveData)) := by
  refine ⟨rfl, rfl, rfl, fun hpoly hproc => ?_, fun hcol hagg => ?_⟩
  · have hshift : s.oldKeyData.xi + peerData.foldl
        (fun acc d => (acc + d.share) % C.q)
        (polyEval C.q coeffs (parseDec s.params.partyId)) ≡
        s.oldKeyData.xi + (polyEval C.q coeffs (parseDec s.params.partyId)
          + (peerData.map RefreshPeerData.share).sum) [MOD C.q] := by
      have hfold2 : peerData.foldl (fun acc d => (acc + d.share) % C.q)
          (polyEval C.q coeffs (parseDec s.params.partyId)) ≡
          polyEval C.q coeffs (parseDec s.params.partyId) +
            (peerData.map RefreshPeerData.share).sum [MOD C.q] := by
        have hsame : peerData.foldl (fun acc d => (acc + d.share) % C.q)
            (polyEval C.q coeffs (parseDec s.params.partyId)) =
            (peerData.map RefreshPeerData.share).foldl
              (fun acc x => (acc + x) % C.q)
              (polyEval C.q coeffs (parseDec s.params.partyId)) := by
          rw [List.foldl_map]
        rw [hsame]
        exact foldl_add_mod_modEq C.q (peerData.map RefreshPeerData.share)
          (polyEval C.q coeffs (parseDec s.params.partyId))
      exact Nat.ModEq.add_left _ hfold2
    rw [refreshRound3, hpoly]
    simp only [hproc, nextRunningSave]
    refine ⟨trivial, congrArg some hshift, rfl, rfl⟩
  · constructor
    · intro hne
      rw [refreshRound4]
      simp only [hcol, hagg]
      rw [if_pos]
      by_contra hcon
      push_neg at hcon
      exact hne ⟨by omega, by omega⟩
    · intro hx hy
      rw [refreshRound4]
      simp only [hcol, hagg]
      rw [if_neg (by simp [hx, hy])]
      exact ⟨rfl, rfl⟩

/-- C2 (witness): the refresh invariants evaluated on a concrete
two-party session over the exponent model of a 17-element group: the new
share is `7 + (H₁(1) + H₂(1)) mod 17 = 15` with the public key fields
untouched, round 4 finishes when the aggregation matches the old public
key, and fails with the drift error when it does not. -/
theorem claim_C2_refresh_invariants_witness :
    (polyNew (some 0) [] 0).head? = some 0
  ∧ (c2State3.temp.polynomial = some [0, 3] ∧
      refreshRound3Process c7Hash (expCurve 17) (parseDec "1")
        c2State3.temp.peerCommitments c2State3.received = .ok c2PeerData ∧
      ((nextRunningSave (refreshRound3 c7Hash (expCurve 17) c2Prove
        c2State3)).map KeyData.xi) = some 15 ∧
      ((nextRunningSave (refreshRound3 c7Hash (expCurve 17) c2Prove
        c2State3)).map KeyData.publicKeyX) = some 10)
  ∧ (refreshRound4 (expCurve 17) svTrue c2State4good =
      ⟨some (.finished c2State4good.saveData), [], none⟩)
  ∧ (refreshRound4 (expCurve 17) svTrue c2State4bad =
      ⟨none, [], some (.plain "global public key changed! refresh failed")⟩) := by
  have h3 := (claim_C2_refresh_invariants c7Hash (expCurve 17) c2Prove svTrue
    [] 0 c2Params c2Old c2State3 c2State4good [0, 3] c2PeerData
    [("2", (3, 0))] (10, 0)).2.2.2.1 (by decide) (by decide)
  have h4good := (claim_C2_refresh_invariants c7Hash (expCurve 17) c2Prove
    svTrue [] 0 c2Params c2Old c2State3 c2State4good [0, 3] c2PeerData
    [("2", (3, 0))] (10, 0)).2.2.2.2 (by decide) (by decide)
  have h4bad := (claim_C2_refresh_invariants c7Hash (expCurve 17) c2Prove
    svTrue [] 0 c2Params c2Old c2State3 c2State4bad [0, 3] c2PeerData
    [("2", (3, 0))] (10, 0)).2.2.2.2 (by decide) (by decide)
  refine ⟨(claim_C2_refresh_invariants c7Hash (expCurve 17) c2Prove svTrue
    [] 0 c2Params c2Old c2State3 c2State4good [0, 3] c2PeerData
    [("2", (3, 0))] (10, 0)).1, ⟨by decide, by decide, ?_, ?_⟩, ?_, ?_⟩
  · have := h3.2.1
    rwa [show ((c2State3.oldKeyData.xi +
      (polyEval (expCurve 17).q [0, 3] (parseDec c2State3.params.partyId)
        + (c2PeerData.map RefreshPeerData.share).sum)) % (expCurve 17).q) = 15
      from by decide] at this
  · have := h3.2.2.1
    rwa [show c2State3.saveData.publicKeyX = 10 from by decide] at this
  · exact ((h4good.2 (by decide) (by decide)).1)
  · exact h4bad.1 (by decide)

/-- C5 (counterexample).  The claim says every commitment/VSS/Schnorr
verification failure in DKG, Refresh and Reshare surfaces the offending
party's PartyId with a reason (a structured identifiable abort).  In
Refresh, a failing commitment check surfaces a plain `fmt.Errorf` string
(the peer id merely interpolated into the text), not a `Blame` carrying
a PartyId: concretely, peer 2's decommit against an invalid commitment
yields the plain error, which is not a blame. -/
theorem claim_C5_counterexample :
    refreshRound3VerifyPeer c7Hash (expCurve 17) 1 [] "2"
      (some c2DecommitMsg) (some c2ShareMsg) =
      .error (.plain "commitment verification failed for 2")
  ∧ Err.isBlame (.plain "commitment verification failed for 2") = false := by
  decide

/-- C5 (amended): DKG's and Reshare's verification failures surface
structured `tss.Blame` errors naming the offender — DKG round 3 blames
the decommit's sender for a commitment mismatch and the share's sender
for an invalid VSS share, DKG round 4 blames the proof's sender for a
failing Schnorr proof or an inconsistent public-key share, and Reshare
round 3 likewise blames the decommit's sender for a commitment mismatch
and the share's sender for an invalid VSS share — while Refresh's
commitment, VSS and Schnorr failures surface plain `fmt.Errorf` errors
that embed the peer's id in the message text but carry no structured
PartyId (Reshare's own Schnorr verification, round 4, is not in the
staged source). -/
theorem claim_C5_blame_vs_plain
    (h : HashFn) (C : Curve) (sv : SchnorrVerify) (t myIdx : Nat)
    (comm : Bytes) (id : String) (dm sm m : Msg) (ms rest : List Msg)
    (buf : List (String × List Msg))
    (xiX xiY pr ps : Bytes) (allVss : List (String × List Pt)) :
    (32 ≤ (dm.payload.bytes?).length →
      commitmentVerify h comm ((dm.payload.bytes?).take 32)
        ((dm.payload.bytes?).drop 32) = false →
      keygenRound3VerifyPeer h C t myIdx comm id (some dm) (some sm) =
        .error (.blame dm.sender "commitment verification failed"))
  ∧ (32 ≤ (dm.payload.bytes?).length →
      commitmentVerify h comm ((dm.payload.bytes?).take 32)
        ((dm.payload.bytes?).drop 32) = true →
      256 ≤ ((dm.payload.bytes?).drop 32).length →
      vssShareCheckT C myIdx t
        (keygenParseVss (((dm.payload.bytes?).drop 32).drop 256) t)
        (bytesToNat (sm.payload.bytes?)) = false →
      keygenRound3VerifyPeer h C t myIdx comm id (some dm) (some sm) =
        .error (.blame sm.sender "vss share verification failed"))
  ∧ (m.payload = .proofR3 xiX xiY pr ps →
      sv ⟨pr, ps⟩ (bytesToNat xiX, bytesToNat xiY) = false →
      keygenRound4VerifyPeer C sv t allVss id m =
        .error (.blame m.sender "schnorr proof verification failed"))
  ∧ (32 ≤ (dm.payload.bytes?).length →
      commitmentVerify h comm ((dm.payload.bytes?).take 32)
        ((dm.payload.bytes?).drop 32) = false →
      refreshRound3VerifyPeer h C myIdx comm id (some dm) (some sm) =
        .error (.plain ("commitment verification failed for " ++ id)) ∧
      ∀ e, refreshRound3VerifyPeer h C myIdx comm id (some dm) (some sm) =
        .error e → Err.isBlame e = false)
  ∧ (m.payload = .proofR3 xiX xiY pr ps →
      sv ⟨pr, ps⟩ (bytesToNat xiX, bytesToNat xiY) = false →
      refreshRound4Collect sv ((id, m :: ms) :: buf) =
        .error (.plain ("schnorr proof failed for " ++ id)))
  ∧ (32 ≤ (dm.payload.bytes?).length →
      commitmentVerify h comm ((dm.payload.bytes?).take 32)
        ((dm.payload.bytes?).drop 32) = false →
      reshareRound3VerifyPeer h C myIdx comm id (some dm) (some sm) =
        .error (.blame dm.sender "commitment verification failed"))
  ∧ (∀ pn vss, 32 ≤ (dm.payload.bytes?).length →
      commitmentVerify h comm ((dm.payload.bytes?).take 32)
        ((dm.payload.bytes?).drop 32) = true →
      reshareJsonDecode ((dm.payload.bytes?).drop 32) =
        some (pn, some vss) →
      vssShareCheckT C myIdx ((ptsOfFlat vss).length - 1) (ptsOfFlat vss)
        (bytesToNat (sm.payload.bytes?)) = false →
      reshareRound3VerifyPeer h C myIdx comm id (some dm) (some sm) =
        .error (.blame sm.sender "vss share verification failed")) := by
  refine ⟨fun h1 h2 => ?_, fun h1 h2 h3 h4 => ?_, fun h1 h2 => ?_,
    fun h1 h2 => ?_, fun h1 h2 => ?_, fun h1 h2 => ?_,
    fun pn vss h1 h2 h3 h4 => ?_⟩
  · rw [keygenRound3VerifyPeer, if_neg (by omega)]
    simp [h2]
  · have h4' : vssShareCheckT C myIdx t
        (keygenParseVss (List.drop 288 dm.payload.bytes?) t)
        (bytesToNat sm.payload.bytes?) = false := by
      rw [List.drop_drop] at h4
      norm_num at h4
      exact h4
    rw [List.length_drop] at h3
    have hlen2 : ¬ ((dm.payload.bytes?).drop 32).length < 256 := by
      rw [List.length_drop]
      omega
    have hlen1 : ¬ (dm.payload.bytes?).length < 32 := by omega
    simp [keygenRound3VerifyPeer, hlen1, hlen2, h2, h4']
    omega
  · rw [keygenRound4VerifyPeer, h1]
    simp [h2]
  · have heq : refreshRound3VerifyPeer h C myIdx comm id (some dm) (some sm) =
        .error (.plain ("commitment verification failed for " ++ id)) := by
      rw [refreshRound3VerifyPeer, if_neg (by omega)]
      simp [h2]
    refine ⟨heq, fun e he => ?_⟩
    rw [heq] at he
    simp only [Except.error.injEq] at he
    rw [← he]
    rfl
  · rw [refreshRound4Collect]
    simp [h1, h2]
  · rw [reshareRound3VerifyPeer, if_neg (by omega)]
    simp [h2]
  · rw [reshareRound3VerifyPeer, if_neg (by omega)]
    simp [h2, h3, h4]

set_option maxRecDepth 8192 in
/-- C5 (witness): the blame/plain routing evaluated concretely — keygen
round 3 blames peer 2 for a commitment mismatch (empty commitment) and
for an invalid VSS share (share 5 against all-zero commitments), keygen
round 4 blames peer 2 for a rejected Schnorr proof, refresh surfaces
plain errors for the analogous commitment and Schnorr failures, and
reshare round 3 blames peer 2 for a commitment mismatch and for an
invalid VSS share (share 6 against the committed point (5, 0) decoded
from the JSON decommit). -/
theorem claim_C5_blame_vs_plain_witness :
    keygenRound3VerifyPeer c7Hash (expCurve 17) 1 1 [] "2"
      (some c5KgDecommit) (some c5KgShare) =
      .error (.blame "2" "commitment verification failed")
  ∧ keygenRound3VerifyPeer c7Hash (expCurve 17) 1 1 (List.replicate 32 1) "2"
      (some c5KgDecommit) (some c5KgShare) =
      .error (.blame "2" "vss share verification failed")
  ∧ keygenRound4VerifyPeer (expCurve 17) svFalse 1 [] "2" c2Round3Msg =
      .error (.blame "2" "schnorr proof verification failed")
  ∧ refreshRound3VerifyPeer c7Hash (expCurve 17) 1 [] "2"
      (some c2DecommitMsg) (some c2ShareMsg) =
      .error (.plain "commitment verification failed for 2")
  ∧ refreshRound4Collect svFalse [("2", [c2Round3Msg])] =
      .error (.plain "schnorr proof failed for 2")
  ∧ reshareRound3VerifyPeer c7Hash (expCurve 17) 1 [] "2"
      (some c5ReDecommit) (some c5ReShare) =
      .error (.blame "2" "commitment verification failed")
  ∧ reshareRound3VerifyPeer c7Hash (expCurve 17) 1 (List.replicate 32 1) "2"
      (some c5ReDecommit) (some c5ReShare) =
      .error (.blame "2" "vss share verification failed") := by
  refine ⟨?_, ?_, ?_, ?_, ?_, ?_, ?_⟩
  · exact (claim_C5_blame_vs_plain c7Hash (expCurve 17) svFalse 1 1 [] "2"
      c5KgDecommit c5KgShare c2Round3Msg [] [] [] [3] [] [] [] []).1
      (by decide) (by decide)
  · exact (claim_C5_blame_vs_plain c7Hash (expCurve 17) svFalse 1 1
      (List.replicate 32 1) "2" c5KgDecommit c5KgShare c2Round3Msg [] [] []
      [3] [] [] [] []).2.1 (by decide) (by decide) (by decide) (by decide)
  · exact (claim_C5_blame_vs_plain c7Hash (expCurve 17) svFalse 1 1 [] "2"
      c5KgDecommit c5KgShare c2Round3Msg [] [] [] [3] [] [] [] []).2.2.1
      (by decide) (by decide)
  · exact ((claim_C5_blame_vs_plain c7Hash (expCurve 17) svFalse 1 1 [] "2"
      c2DecommitMsg c2ShareMsg c2Round3Msg [] [] [] [3] [] [] [] []).2.2.2.1
      (by decide) (by decide)).1
  · exact (claim_C5_blame_vs_plain c7Hash (expCurve 17) svFalse 1 1 [] "2"
      c2DecommitMsg c2ShareMsg c2Round3Msg [] [] [] [3] [] []
      [] []).2.2.2.2.1 (by decide) (by decide)
  · exact (claim_C5_blame_vs_plain c7Hash (expCurve 17) svFalse 1 1 [] "2"
      c5ReDecommit c5ReShare c2Round3Msg [] [] [] [3] [] []
      [] []).2.2.2.2.2.1 (by decide) (by decide)
  · exact (claim_C5_blame_vs_plain c7Hash (expCurve 17) svFalse 1 1
      (List.replicate 32 1) "2" c5ReDecommit c5ReShare c2Round3Msg [] [] []
      [3] [] [] [] []).2.2.2.2.2.2 none [5, 0] (by decide) (by decide)
      (by decide) (by decide)

/-- Appending one coefficient on top adds one power-sum term. -/
theorem powerSum_append (l : List Nat) (a x : Nat) :
    powerSum (l ++ [a]) x = powerSum l x + a * x ^ l.length := by
  induction l with
  | nil => simp [powerSum]
  | cons b tl ih =>
      rw [List.cons_append]
      simp only [powerSum]
      rw [ih, List.length_cons]
      ring

/-- Pure Horner evaluation over the reversed coefficient list computes
the power sum. -/
theorem foldl_horner_eq (x : Nat) (l : List Nat) (init : Nat) :
    l.foldl (fun r a => r * x + a) init =
      init * x ^ l.length + powerSum l.reverse x := by
  induction l generalizing init with
  | nil => simp [powerSum]
  | cons a tl ih =>
      simp only [List.foldl_cons, List.reverse_cons, List.length_cons]
      rw [ih (init * x + a), powerSum_append]
      have hlen : tl.reverse.length = tl.length := List.length_reverse tl
      rw [hlen]
      ring

/-- The Horner fold is congruent in its initial value. -/
theorem foldl_horner_cong (q x : Nat) (l : List Nat) (t1 t2 : Nat)
    (h : t1 ≡ t2 [MOD q]) :
    l.foldl (fun r a => (r * x + a) % q) t1 ≡
      l.foldl (fun r a => (r * x + a) % q) t2 [MOD q] := by
  induction l generalizing t1 t2 with
  | nil => exact h
  | cons a tl ih =>
      simp only [List.foldl_cons]
      have h1 : t1 * x + a ≡ t2 * x + a [MOD q] :=
        Nat.ModEq.add_right a (h.mul_right x)
      exact ih _ _ ((Nat.mod_modEq _ q).trans (h1.trans
        (Nat.mod_modEq _ q).symm))

/-- The Horner fold with per-step reduction is congruent to the pure
fold. -/
theorem foldl_horner_mod (q x : Nat) (l : List Nat) (init : Nat) :
    l.foldl (fun r a => (r * x + a) % q) init ≡
      l.foldl (fun r a => r * x + a) init [MOD q] := by
  induction l generalizing init with
  | nil => exact Nat.ModEq.refl _
  | cons a tl ih =>
      simp only [List.foldl_cons]
      calc tl.foldl (fun r b => (r * x + b) % q) ((init * x + a) % q)
          ≡ tl.foldl (fun r b => (r * x + b) % q) (init * x + a) [MOD q] :=
            foldl_horner_cong q x tl _ _ (Nat.mod_modEq _ q)
        _ ≡ tl.foldl (fun r b => r * x + b) (init * x + a) [MOD q] := ih _

/-- Horner evaluation with per-step reduction (the source's
`Polynomial.Evaluate`) is congruent mod `q` to the power sum. -/
theorem polyEval_modEq_powerSum (q : Nat) (coeffs : List Nat) (x : Nat) :
    polyEval q coeffs x ≡ powerSum coeffs x [MOD q] := by
  rw [polyEval]
  rcases hrev : coeffs.reverse with _ | ⟨top, rest⟩
  · have : coeffs = [] := by
      have := congrArg List.reverse hrev
      simpa using this
    simp [this, powerSum]
    exact Nat.ModEq.refl _
  · have hco : coeffs = rest.reverse ++ [top] := by
      have h2 := congrArg List.reverse hrev
      simpa using h2
    calc rest.foldl (fun r a => (r * x + a) % q) top
        ≡ rest.foldl (fun r a => r * x + a) top [MOD q] :=
          foldl_horner_mod q x rest top
      _ = top * x ^ rest.length + powerSum rest.reverse x :=
          foldl_horner_eq x rest top
      _ = powerSum (rest.reverse ++ [top]) x := by
          rw [powerSum_append, List.length_reverse]
          ring
      _ = powerSum coeffs x := by rw [hco]

/-- Congruence is preserved by finite sums. -/
theorem modEq_sum (n : Nat) (t : Nat) (f g : Nat → Nat)
    (h : ∀ i ∈ Finset.range t, f i ≡ g i [MOD n]) :
    (Finset.range t).sum f ≡ (Finset.range t).sum g [MOD n] := by
  induction t with
  | zero => simp [Nat.ModEq.refl]
  | succ t ih =>
      rw [Finset.sum_range_succ, Finset.sum_range_succ]
      exact (ih (fun i hi => h i (Finset.mem_range.mpr
          (Nat.lt_succ_of_lt (Finset.mem_range.mp hi))))).add
        (h t (Finset.mem_range.mpr (Nat.lt_succ_self t)))

/-- The power sum equals the indexed sum over coefficient positions. -/
theorem powerSum_eq_sum_getD (l : List Nat) (x : Nat) :
    (Finset.range l.length).sum (fun k => l.getD k 0 * x ^ k) =
      powerSum l x := by
  induction l with
  | nil => simp [powerSum]
  | cons a tl ih =>
      rw [List.length_cons, Finset.sum_range_succ']
      have hterm : ∀ k, (a :: tl).getD (k + 1) 0 * x ^ (k + 1) =
          x * (tl.getD k 0 * x ^ k) := by
        intro k
        simp only [List.getD_cons_succ]
        ring
      calc (Finset.range tl.length).sum
            (fun k => (a :: tl).getD (k + 1) 0 * x ^ (k + 1)) +
            (a :: tl).getD 0 0 * x ^ 0
          = (Finset.range tl.length).sum
              (fun k => x * (tl.getD k 0 * x ^ k)) + a := by
            rw [Finset.sum_congr rfl (fun k _ => hterm k)]
            simp
        _ = a + x * (Finset.range tl.length).sum
              (fun k => tl.getD k 0 * x ^ k) := by
            rw [← Finset.mul_sum]
            ring
        _ = powerSum (a :: tl) x := by rw [ih]; rfl

/-- Shape of the VSS-check right-hand side over the exponent model: the
second coordinate is zero, the first is reduced mod `q` and congruent to
the indexed power sum of the commitment points' first coordinates. -/
theorem vssCheckRhs_exp (q idx t : Nat) (pts : List Pt) :
    (vssCheckRhsRange (expCurve q) idx t pts).2 = 0 ∧
    (vssCheckRhsRange (expCurve q) idx t pts).1 % q =
      (vssCheckRhsRange (expCurve q) idx t pts).1 ∧
    (vssCheckRhsRange (expCurve q) idx t pts).1 ≡
      (Finset.range (t + 1)).sum
        (fun k => (pts.getD k (0, 0)).1 * idx ^ k) [MOD q] := by
  induction t with
  | zero =>
      refine ⟨rfl, Nat.mod_mod_of_dvd _ dvd_rfl, ?_⟩
      rw [Finset.sum_range_one]
      calc (pts.getD 0 (0, 0)).1 * (idx ^ 0 % q) % q
          ≡ (pts.getD 0 (0, 0)).1 * (idx ^ 0 % q) [MOD q] :=
            Nat.mod_modEq _ q
        _ ≡ (pts.getD 0 (0, 0)).1 * idx ^ 0 [MOD q] :=
            (Nat.mod_modEq _ q).mul_left _
  | succ t ih =>
      obtain ⟨ih2, ihmod, ihcong⟩ := ih
      have hstep : vssCheckRhsRange (expCurve q) idx (t + 1) pts =
          (((vssCheckRhsRange (expCurve q) idx t pts).1 +
            (pts.getD (t + 1) (0, 0)).1 * (idx ^ (t + 1) % q) % q) % q, 0) := by
        unfold vssCheckRhsRange
        rw [List.range_succ, List.foldl_append, List.foldl_cons,
          List.foldl_nil]
        rfl
      refine ⟨by rw [hstep], by rw [hstep]; exact Nat.mod_mod_of_dvd _ dvd_rfl, ?_⟩
      rw [hstep, Finset.sum_range_succ]
      calc ((vssCheckRhsRange (expCurve q) idx t pts).1 +
            (pts.getD (t + 1) (0, 0)).1 * (idx ^ (t + 1) % q) % q) % q
          ≡ (vssCheckRhsRange (expCurve q) idx t pts).1 +
            (pts.getD (t + 1) (0, 0)).1 * (idx ^ (t + 1) % q) % q [MOD q] :=
            Nat.mod_modEq _ q
        _ ≡ (Finset.range (t + 1)).sum
              (fun k => (pts.getD k (0, 0)).1 * idx ^ k) +
            (pts.getD (t + 1) (0, 0)).1 * idx ^ (t + 1) [MOD q] := by
            refine Nat.ModEq.add ihcong ?_
            calc (pts.getD (t + 1) (0, 0)).1 * (idx ^ (t + 1) % q) % q
                ≡ (pts.getD (t + 1) (0, 0)).1 * (idx ^ (t + 1) % q)
                  [MOD q] := Nat.mod_modEq _ q
              _ ≡ (pts.getD (t + 1) (0, 0)).1 * idx ^ (t + 1) [MOD q] :=
                  (Nat.mod_modEq _ q).mul_left _

/-- Over the exponent model, the VSS share check accepts exactly the
shares congruent mod `q` to the power sum of the committed coefficients
evaluated at the checked index. -/
theorem vssShareCheckT_exp_iff (q idx t share : Nat) (coeffs : List Nat)
    (hlen : coeffs.length = t + 1) :
    (vssShareCheckT (expCurve q) idx t
        (coeffs.map (expCurve q).scalarBaseMult) share = true) ↔
      share ≡ powerSum coeffs idx [MOD q] := by
  set pts := coeffs.map (expCurve q).scalarBaseMult with hpts
  obtain ⟨h2, hmod, hcong⟩ := vssCheckRhs_exp q idx t pts
  have hgetD : ∀ k, (pts.getD k (0, 0)).1 = coeffs.getD k 0 % q := by
    intro k
    have h0 : ((0, 0) : Pt) = (expCurve q).scalarBaseMult 0 := by
      simp [expCurve]
    rw [hpts, h0, List.getD_map]
    rfl
  have hsum : (Finset.range (t + 1)).sum
      (fun k => (pts.getD k (0, 0)).1 * idx ^ k) ≡
      powerSum coeffs idx [MOD q] := by
    calc (Finset.range (t + 1)).sum (fun k => (pts.getD k (0, 0)).1 * idx ^ k)
        ≡ (Finset.range (t + 1)).sum
            (fun k => coeffs.getD k 0 * idx ^ k) [MOD q] := by
          refine modEq_sum q (t + 1) _ _ (fun i _ => ?_)
          rw [hgetD i]
          exact (Nat.mod_modEq _ q).mul_right _
      _ = powerSum coeffs idx := by
          rw [← hlen]
          exact powerSum_eq_sum_getD coeffs idx
  have hbeq : (vssShareCheckT (expCurve q) idx t pts share = true) ↔
      ((share % q, 0) : Pt) = vssCheckRhsRange (expCurve q) idx t pts := by
    unfold vssShareCheckT
    constructor
    · intro h
      exact eq_of_beq h
    · intro h
      exact beq_iff_eq.mpr h
  rw [hbeq]
  constructor
  · intro h
    have h1 : share % q = (vssCheckRhsRange (expCurve q) idx t pts).1 :=
      congrArg Prod.fst h
    unfold Nat.ModEq
    rw [h1, ← hsum, ← hcong]
    exact hmod.symm
  · intro h
    have h1 : share % q = (vssCheckRhsRange (expCurve q) idx t pts).1 := by
      rw [← hmod]
      unfold Nat.ModEq at hcong hsum h
      rw [hcong, hsum]
      exact h
    have h2' : (vssCheckRhsRange (expCurve q) idx t pts) =
        ((vssCheckRhsRange (expCurve q) idx t pts).1,
         (vssCheckRhsRange (expCurve q) idx t pts).2) := rfl
    rw [h2', ← h1, h2]

/-- Folding the "remember the last matching position + 1" update over a
pair list returns the last matching entry's position + 1 (or the initial
accumulator when nothing matches). -/
theorem foldl_override (selfId : String) (l : List (Nat × String))
    (init : Option Nat) :
    l.foldl (fun acc ip => if ip.2 == selfId then some (ip.1 + 1) else acc)
        init =
      match (l.filter (fun ip => ip.2 == selfId)).getLast? with
      | some p => some (p.1 + 1)
      | none => init := by
  induction l using List.reverseRecOn generalizing init with
  | nil => rfl
  | append_singleton l a ih =>
      rw [List.foldl_append, List.foldl_cons, List.foldl_nil,
        List.filter_append]
      rcases ha : (a.2 == selfId) with _ | _
      · have hfa : List.filter (fun ip => ip.2 == selfId) [a] = [] := by
          simp [List.filter_cons, ha]
        rw [hfa, List.append_nil, if_neg (by simp)]
        exact ih init
      · have hfa : List.filter (fun ip => ip.2 == selfId) [a] = [a] := by
          simp [List.filter_cons, ha]
        rw [hfa, if_pos rfl, List.getLast?_concat]

/-- The `calcMyX` scan selects the last list position of the local id,
plus one. -/
theorem calcMyX_eq_lastPosition (parties : List String) (selfId : String) :
    calcMyX parties selfId =
      ((parties.enum.filter (fun ip => ip.2 == selfId)).getLast?).map
        (fun p => p.1 + 1) := by
  rw [calcMyX, foldl_override]
  cases (parties.enum.filter (fun ip => ip.2 == selfId)).getLast? <;> rfl

/-- C10 (counterexample): the claim's final sentence — that for every run
in which some party's parsed ID differs from its 1-based list position the
round-3 VSS check fails even with all parties honest — is false.  With
dealer polynomial `F = [5, 0]` (top coefficient zero, as `polynomial.New`
can draw), the party at list position 0 holding ID "2" parses to index 2,
not position + 1 = 1, yet the check of its honest share `F(0 + 1)` at its
parsed index succeeds, because `F(1) = F(2)`. -/
theorem claim_C10_counterexample :
    parseDec "2" ≠ 0 + 1 ∧
    vssShareCheckT (expCurve 17) (parseDec "2") 1
      ([5, 0].map (expCurve 17).scalarBaseMult)
      (polyEval 17 [5, 0] (0 + 1)) = true := by
  decide

/-- C10: the index conventions of the claim, with the failure statement
corrected.  (a) keygen round 2 sends the peer at 0-based list position `i`
the share `F(i + 1)`; (b) over the exponent model of the curve the round-3
check `share·G == Σ_k i^k·A_k` at verification index `idx` accepts exactly
the shares congruent mod `q` to `Σ_k a_k·idx^k` — so it succeeds whenever
the evaluation point used by the sender is congruent to the parsed
verification index, not only when they are equal; (c) in particular the
honest share `F(i + 1)` always passes at index `i + 1`, so runs where every
parsed ID equals position + 1 verify; (d) signing's Lagrange x-coordinate
for the local party is its last list position + 1, confirming the
position-based convention on the signing side. -/
theorem claim_C10_index_consistency (q t : Nat) (coeffs : List Nat)
    (partyId selfId : String) (parties : List String) (i : Nat)
    (peer : String)
    (hlen : coeffs.length = t + 1)
    (hi : parties[i]? = some peer)
    (hne : (peer == partyId) = false) :
    ({ sender := partyId, mtype := "KeyGenRound2_Share", round := 2
       isBroadcast := false, recipients := [peer]
       payload := .raw (natToBytesBE (polyEval q coeffs (i + 1))) } : Msg)
      ∈ keygenRound2Shares (expCurve q) partyId parties coeffs ∧
    (∀ idx share,
      (vssShareCheckT (expCurve q) idx t
          (coeffs.map (expCurve q).scalarBaseMult) share = true) ↔
        share ≡ powerSum coeffs idx [MOD q]) ∧
    vssShareCheckT (expCurve q) (i + 1) t
        (coeffs.map (expCurve q).scalarBaseMult)
        (polyEval q coeffs (i + 1)) = true ∧
    calcMyX parties selfId =
      ((parties.enum.filter (fun ip => ip.2 == selfId)).getLast?).map
        (fun p => p.1 + 1) := by
  refine ⟨?_, ?_, ?_, calcMyX_eq_lastPosition parties selfId⟩
  · rw [keygenRound2Shares]
    refine List.mem_filterMap.mpr ⟨(i, peer), ?_, ?_⟩
    · have h1 : parties.enum[i]? = some (i, peer) := by
        rw [List.getElem?_enum, hi]
        rfl
      exact List.mem_iff_getElem?.mpr ⟨i, h1⟩
    · have hq : (expCurve q).q = q := rfl
      simp [hne, hq]
  · intro idx share
    exact vssShareCheckT_exp_iff q idx t share coeffs hlen
  · exact (vssShareCheckT_exp_iff q (i + 1) t _ coeffs hlen).mpr
      (polyEval_modEq_powerSum q coeffs (i + 1))

/-- C1: the presign claim against the code as written.  (a)
`NewPreSignStateMachine` is round 1 entered on a state whose `msgToSign`
is nil; (b)–(d) rounds 1–3 are independent of the signing mode: changing
`msgToSign` changes nothing but the `msgToSign` field threaded into the
next state, so presign executes them exactly as signing; (e) the
divergence from the claim: round 4 does NOT stop on a nil digest — it
treats it as `m = 0`, computes `s_i = 0·k_i + r·sigma_i mod N`,
broadcasts `SignRound4_Si` and stays in round 4, returning a running
state; (f) consequently a presign session's round 4 never yields a
finished state and never leaves round 4 without a broadcast, so no
`PreSignature` is produced there, contradicting the claim's and the
spec's presign stop (which the repository's `PreSignature` type and the
benchmarks reading `Result().(*PreSignature)` nevertheless expect: a
code bug, not a spec error). -/
theorem claim_C1_presign_divergence (C : Curve) (ki gammai : Nat) (rk : Int)
    (params : Params) (kd : KeyData)
    (rnds : String → Int × Int × Int × Int)
    (s : SignState) (mt : Option Bytes)
    (r rx ry : Nat) (s4 : SignState)
    (hcore : signRound4Core C s4.temp s4.received = .ok (r, rx, ry)) :
    newPreSignStateMachine C ki gammai rk params kd =
      signRound1 C ki gammai rk
        { params := params, keyData := kd, msgToSign := none, round := 1
          temp := {}, received := [] } ∧
    signRound1 C ki gammai rk { s with msgToSign := mt } =
      setMode mt (signRound1 C ki gammai rk s) ∧
    signRound2 rnds { s with msgToSign := mt } =
      setMode mt (signRound2 rnds s) ∧
    signRound3 C { s with msgToSign := mt } =
      setMode mt (signRound3 C s) ∧
    signRound4 C { s4 with msgToSign := none } =
      ⟨some (.running
        { s4 with
          msgToSign := none
          temp := { s4.temp with
                    r := some r
                    si := some (r * s4.temp.sigmaI.getD 0 % C.q)
                    rx := some rx
                    ry := some ry }
          round := 4
          received := [] }),
        [{ sender := s4.params.partyId, mtype := "SignRound4_Si"
           round := 4, isBroadcast := true, recipients := []
           payload := .signRound4 (r * s4.temp.sigmaI.getD 0 % C.q) }],
        none⟩ ∧
    (∀ f, (signRound4 C { s4 with msgToSign := none }).next ≠
      some (.finished f)) ∧
    (signRound4 C { s4 with msgToSign := none }).out ≠ [] := by
  have hsi : (bytesToNat [] * s4.temp.ki.getD 0 % C.q
      + r * s4.temp.sigmaI.getD 0 % C.q) % C.q =
      r * s4.temp.sigmaI.getD 0 % C.q := by
    show (0 * s4.temp.ki.getD 0 % C.q
      + r * s4.temp.sigmaI.getD 0 % C.q) % C.q = _
    rw [Nat.zero_mul, Nat.zero_mod, Nat.zero_add]
    exact Nat.mod_mod_of_dvd _ dvd_rfl
  have h4 : signRound4 C { s4 with msgToSign := none } =
      ⟨some (.running
        { s4 with
          msgToSign := none
          temp := { s4.temp with
                    r := some r
                    si := some (r * s4.temp.sigmaI.getD 0 % C.q)
                    rx := some rx
                    ry := some ry }
          round := 4
          received := [] }),
        [{ sender := s4.params.partyId, mtype := "SignRound4_Si"
           round := 4, isBroadcast := true, recipients := []
           payload := .signRound4 (r * s4.temp.sigmaI.getD 0 % C.q) }],
        none⟩ := by
    simp [signRound4, hcore, hsi]
  refine ⟨rfl, ?_, ?_, ?_, h4, ?_, ?_⟩
  · cases h : signRound1Core C ki gammai rk s.params s.keyData s.temp with
    | error e => simp [signRound1, setMode, h]
    | ok v => simp [signRound1, setMode, h]
  · cases h : signRound2Core s.params s.keyData s.temp s.received rnds with
    | error e => simp [signRound2, setMode, h]
    | ok v => simp [signRound2, setMode, h]
  · cases h : signRound3Core C.q s.params s.keyData s.temp s.received with
    | error e => simp [signRound3, setMode, h]
    | ok v => simp [signRound3, setMode, h]
  · intro f
    rw [h4]
    simp
  · rw [h4]
    simp

/-- C1 witness: the divergence theorem applied to a concrete three-party
session whose round-4 derivation yields `r = 13` on the toy curve: the
nil-digest session broadcasts `s_i = 13·4 mod 17 = 1` and keeps
running. -/
theorem claim_C1_presign_divergence_witness :
    signRound4Core (expCurve 17) c1SignState.temp c1SignState.received =
        .ok (13, 13, 0) ∧
    (newPreSignStateMachine (expCurve 17) 2 5 3 sampleParams {} =
      signRound1 (expCurve 17) 2 5 3
        { params := sampleParams, keyData := {}, msgToSign := none
          round := 1, temp := {}, received := [] } ∧
    signRound1 (expCurve 17) 2 5 3
        { sampleSignState with msgToSign := some [1] } =
      setMode (some [1]) (signRound1 (expCurve 17) 2 5 3 sampleSignState) ∧
    signRound2 (fun _ => (0, 0, 0, 0))
        { sampleSignState with msgToSign := some [1] } =
      setMode (some [1])
        (signRound2 (fun _ => (0, 0, 0, 0)) sampleSignState) ∧
    signRound3 (expCurve 17) { sampleSignState with msgToSign := some [1] } =
      setMode (some [1]) (signRound3 (expCurve 17) sampleSignState) ∧
    signRound4 (expCurve 17) { c1SignState with msgToSign := none } =
      ⟨some (.running
        { c1SignState with
          msgToSign := none
          temp := { c1SignState.temp with
                    r := some 13
                    si := some (13 * c1SignState.temp.sigmaI.getD 0
                      % (expCurve 17).q)
                    rx := some 13
                    ry := some 0 }
          round := 4
          received := [] }),
        [{ sender := c1SignState.params.partyId, mtype := "SignRound4_Si"
           round := 4, isBroadcast := true, recipients := []
           payload := .signRound4 (13 * c1SignState.temp.sigmaI.getD 0
             % (expCurve 17).q) }],
        none⟩ ∧
    (∀ f, (signRound4 (expCurve 17)
        { c1SignState with msgToSign := none }).next ≠
      some (.finished f)) ∧
    (signRound4 (expCurve 17)
        { c1SignState with msgToSign := none }).out ≠ []) :=
  ⟨by decide, claim_C1_presign_divergence (expCurve 17) 2 5 3 sampleParams {}
    (fun _ => (0, 0, 0, 0)) sampleSignState (some [1]) 13 13 0 c1SignState
    (by decide)⟩

/-- C10 witness: the index-consistency theorem applied to a concrete
two-party run with decimal IDs matching positions. -/
theorem claim_C10_index_consistency_witness :
    ({ sender := "1", mtype := "KeyGenRound2_Share", round := 2
       isBroadcast := false, recipients := ["2"]
       payload := .raw (natToBytesBE (polyEval 17 [3, 4] (1 + 1))) } : Msg)
      ∈ keygenRound2Shares (expCurve 17) "1" ["1", "2"] [3, 4] ∧
    (∀ idx share,
      (vssShareCheckT (expCurve 17) idx 1
          ([3, 4].map (expCurve 17).scalarBaseMult) share = true) ↔
        share ≡ powerSum [3, 4] idx [MOD 17]) ∧
    vssShareCheckT (expCurve 17) (1 + 1) 1
        ([3, 4].map (expCurve 17).scalarBaseMult)
        (polyEval 17 [3, 4] (1 + 1)) = true ∧
    calcMyX ["1", "2"] "2" =
      (((["1", "2"] : List String).enum.filter
          (fun ip => ip.2 == "2")).getLast?).map (fun p => p.1 + 1) :=
  claim_C10_index_consistency 17 1 [3, 4] "1" "2" ["1", "2"] 1 "2"
    (by decide) (by decide) (by decide)

end CGGMP
